import Mathlib

/-!
Verification development for the Options-Hub GEX/DEX strike-matrix pipeline.

The embedding follows the JavaScript sources:
 - `src/src/state/selectors.js` (`selectors.selectMatrixData`, the matrix data
   builder / projection),
 - `src/src/components/header/headerRenderer.js` (the `STRATEGIES`
   normalization strategy set; this is the unique definition of `STRATEGIES`
   in the program and the binding used by the selector),
 - the store module (`store.setState`, `store.subscribe`, shared state shape).

Numbers are modelled by `ℚ` (exact arithmetic in place of IEEE doubles); the
log-normalization intensity is real-valued (`ℝ`, base-10 logarithm).  JS
strings are Lean `String`s, with the JS code-unit comparison, first-occurrence
`replace`, `toUpperCase` and `split` re-implemented over `String.data` so that
they evaluate by kernel reduction.  JS falsiness of `0`, `""`, `null` and
`undefined` is modelled explicitly (`jsOrQ`, `jsOrStr`, `Option`).
-/

/-- Model of the JS expression `a || b` on numbers: `0` is falsy. -/
def jsOrQ (a b : ℚ) : ℚ := if a = 0 then b else a

/-- Model of the JS expression `a || b` on strings: `""` is falsy. -/
def jsOrStr (a b : String) : String := if a = "" then b else a

/-- Model of `Math.sign` (values are exact rationals, so no NaN case). -/
def jsSign (q : ℚ) : ℤ := if 0 < q then 1 else if q < 0 then -1 else 0

/-- Lexicographic code-unit comparison of JS strings, on the character lists. -/
def lexLtb : List Char → List Char → Bool
  | [], [] => false
  | [], _ :: _ => true
  | _ :: _, [] => false
  | a :: as, b :: bs =>
      if a.toNat < b.toNat then true
      else if b.toNat < a.toNat then false
      else lexLtb as bs

/-- Model of the JS string comparison `a < b`. -/
def strLtb (a b : String) : Bool := lexLtb a.data b.data

/-- Model of the JS string comparison `a <= b` (true iff not `b < a`). -/
def strLeb (a b : String) : Bool := !(strLtb b a)

/-- Model of `String.prototype.toUpperCase` (ASCII-faithful). -/
def upString (s : String) : String := ⟨s.data.map Char.toUpper⟩

/-- Replace the first occurrence of `pat` by `rep`, as JS
`String.prototype.replace` does with a string pattern. -/
def replaceFirstList (pat rep : List Char) : List Char → List Char
  | [] => []
  | c :: rest =>
      if (c :: rest).take pat.length = pat then rep ++ (c :: rest).drop pat.length
      else c :: replaceFirstList pat rep rest

/-- Model of the JS expression `s.replace(pat, rep)` (first occurrence only). -/
def jsReplaceFirst (s pat rep : String) : String := ⟨replaceFirstList pat.data rep.data s.data⟩

/-- Model of `symbol.replace('USDT', '').toUpperCase()` from `selectors.js`. -/
def normalizeTicker (t : String) : String := upString (jsReplaceFirst t "USDT" "")

/-- Characters of `s` before the first `/`, modelling `s.split('/')[0]`. -/
def takeUntilSlash : List Char → List Char
  | [] => []
  | c :: rest => if c = '/' then [] else c :: takeUntilSlash rest

/-- Model of the JS expression `s.split('/')[0]` from the store sync step. -/
def splitSlashHead (s : String) : String := ⟨takeUntilSlash s.data⟩

/-- Model of `Array.prototype.indexOf` on numbers: first index of `v`, `-1`
when absent. -/
def jsIndexOf : List ℚ → ℚ → ℤ
  | [], _ => -1
  | x :: rest, v =>
      if x = v then 0
      else if jsIndexOf rest v = -1 then -1 else jsIndexOf rest v + 1

/-!
Normalization strategy set, from `headerRenderer.js` lines 139-161:

    const STRATEGIES = {
        linear: (val, min, max) => {
            if (max === min) return 0;
            const normalized = (val - min) / (max - min);
            return Math.max(0, Math.min(1, normalized));
        },
        log: (val, min, max) => {
            if (val <= 0) return 0;
            const logVal = Math.log10(val + 1);
            const logMax = Math.log10(max + 1);
            const logMin = Math.log10(min + 1);
            if (logMax === logMin) return 0;
            const normalized = (logVal - logMin) / (logMax - logMin);
            return Math.max(0, Math.min(1, normalized));
        },
        percentile: (val, sortedValues) => {
            if (!sortedValues.length) return 0;
            const index = sortedValues.indexOf(val);
            return index / (sortedValues.length - 1);
        }
    };
-/

namespace STRATEGIES

/-- The `linear` strategy. -/
def linear (val mn mx : ℚ) : ℚ :=
  if mx = mn then 0
  else max 0 (min 1 ((val - mn) / (mx - mn)))

/-- The `log` strategy; `Math.log10 x` is `Real.logb 10 x`. -/
noncomputable def log (val mn mx : ℚ) : ℝ :=
  if val ≤ 0 then 0
  else if Real.logb 10 ((mx : ℝ) + 1) = Real.logb 10 ((mn : ℝ) + 1) then 0
  else max 0 (min 1 ((Real.logb 10 ((val : ℝ) + 1) - Real.logb 10 ((mn : ℝ) + 1)) /
    (Real.logb 10 ((mx : ℝ) + 1) - Real.logb 10 ((mn : ℝ) + 1))))

/-- The `percentile` strategy (exact-match `indexOf` rank lookup). -/
def percentile (val : ℚ) (sortedValues : List ℚ) : ℚ :=
  if sortedValues.length = 0 then 0
  else (jsIndexOf sortedValues val : ℚ) / ((sortedValues.length : ℚ) - 1)

end STRATEGIES

/-!
Data model.  A chain row is one (strike, expiry) exposure sample as served to
the frontend; its numeric fields default to `0`, matching
`parseFloat(item.f || 0)` on an absent field.
-/

/-- One raw exposure row of `data.chain`. -/
structure ChainRow where
  strike : ℚ
  expiry : String
  net_gex : ℚ := 0
  gex : ℚ := 0
  net_dex : ℚ := 0
  dex : ℚ := 0
  net_oi : ℚ := 0
  call_oi : ℚ := 0
  put_oi : ℚ := 0
deriving DecidableEq

/-- Per-asset slice of `state.data` (only the fields the embedded code
reads). -/
structure AssetData where
  price : ℚ := 0
  spotPrice : ℚ := 0
  underlying_price : ℚ := 0
  changePct : ℚ := 0
  chain : List ChainRow := []
deriving DecidableEq

/-- One entry of `exchangeData.<exchange>.assets`. -/
structure ExchangeAsset where
  symbol : String
  name : String := ""
  price : ℚ := 0
  change : ℚ := 0
  changePct : ℚ := 0
deriving DecidableEq

/-- One exchange of `state.exchangeData`. -/
structure Exchange where
  name : String := ""
  assets : List ExchangeAsset := []
deriving DecidableEq

/-- The `state.exchangeData` object. -/
structure ExchangeData where
  bybit : Exchange := {}
  okx : Exchange := {}
  bingx : Exchange := {}
deriving DecidableEq

/-- The global store state (the fields the embedded code reads or writes).
`state.data` is a key-value object, modelled as an association list. -/
structure StoreState where
  data : List (String × AssetData) := []
  exchangeData : ExchangeData := {}
  currentExchange : String := "bybit"
  activeTicker : String := "BTCUSDT"
  currentTab : String := "crypto"
  gexMode : String := "single"
  selectedExpiry : Option String := none
deriving DecidableEq

/-- Model of the JS object lookup `m[k]` on an association list (`undefined`
is `none`). -/
def jsGet (m : List (String × AssetData)) (k : String) : Option AssetData :=
  (m.find? (fun p => decide (p.1 = k))).map (·.2)

/-!
The matrix data builder, `selectors.selectMatrixData` from
`src/src/state/selectors.js` lines 217-299, decomposed statement by
statement.
-/

/-- Model of `symbol ? symbol.replace('USDT', '').toUpperCase() :
state.activeTicker` (an absent or empty `symbol` is falsy). -/
def baseSymbolOf (state : StoreState) (symbol : Option String) : String :=
  match symbol with
  | some s => if s = "" then state.activeTicker else normalizeTicker s
  | none => state.activeTicker

/-- Model of `ticker: symbol || state.activeTicker` in the returned
snapshot. -/
def tickerOf (state : StoreState) (symbol : Option String) : String :=
  match symbol with
  | some s => if s = "" then state.activeTicker else s
  | none => state.activeTicker

/-- Model of `[...new Set(chain.map(c => c.expiry))].sort()`: distinct
expiries in ascending JS string order. -/
def sortedExpiriesOf (chain : List ChainRow) : List String :=
  List.insertionSort (fun a b => strLeb a b = true) ((chain.map (·.expiry)).dedup)

/-- The earliest available expiry, `[...new Set(...)].sort()[0]`. -/
def defaultExpiry (chain : List ChainRow) : String := (sortedExpiriesOf chain).headD ""

/-- Model of `state.selectedExpiry || <earliest expiry>` (both `null` and
`""` are falsy). -/
def targetExpiryOf (state : StoreState) (chain : List ChainRow) : String :=
  match state.selectedExpiry with
  | some s => if s = "" then defaultExpiry chain else s
  | none => defaultExpiry chain

/-- The mode-dependent row filter of the builder:

    const filteredChain = data.chain.filter(item => {
        if (mode === 'single') return item.expiry === targetExpiry;
        if (mode === 'cumulative') return item.expiry <= targetExpiry;
        return true;
    });
-/
def filterByMode (mode target : String) (chain : List ChainRow) : List ChainRow :=
  chain.filter fun item =>
    if mode = "single" then decide (item.expiry = target)
    else if mode = "cumulative" then strLeb item.expiry target
    else true

/-- Model of `[...new Set(filteredChain.map(c => parseFloat(c.strike)))].sort(
(a, b) => b - a)`: distinct strikes in descending order. -/
def strikesOf (fc : List ChainRow) : List ℚ :=
  List.insertionSort (fun a b : ℚ => b ≤ a) ((fc.map (·.strike)).dedup)

/-- Model of `filteredChain.filter(item => parseFloat(item.strike) ===
strike)`. -/
def strikeItems (fc : List ChainRow) (s : ℚ) : List ChainRow :=
  fc.filter (fun item => decide (item.strike = s))

/-- Model of `strikeItems.reduce((sum, item) => sum + g(item), 0)`. -/
def sumBy (g : ChainRow → ℚ) (fc : List ChainRow) (s : ℚ) : ℚ :=
  (strikeItems fc s).foldl (fun sum item => sum + g item) 0

/-- Per-strike summed net GEX, `parseFloat(item.net_gex || item.gex || 0)`. -/
def sumGexAt : List ChainRow → ℚ → ℚ :=
  sumBy (fun item => jsOrQ (jsOrQ item.net_gex item.gex) 0)

/-- Per-strike summed net DEX, `parseFloat(item.net_dex || item.dex || 0)`. -/
def sumDexAt : List ChainRow → ℚ → ℚ :=
  sumBy (fun item => jsOrQ (jsOrQ item.net_dex item.dex) 0)

/-- Per-strike summed net OI, `parseFloat(item.net_oi || 0)`. -/
def sumNetOiAt : List ChainRow → ℚ → ℚ := sumBy (fun item => jsOrQ item.net_oi 0)

/-- Per-strike summed call OI, `parseFloat(item.call_oi || 0)`. -/
def sumCallOiAt : List ChainRow → ℚ → ℚ := sumBy (fun item => jsOrQ item.call_oi 0)

/-- Per-strike summed put OI, `parseFloat(item.put_oi || 0)`. -/
def sumPutOiAt : List ChainRow → ℚ → ℚ := sumBy (fun item => jsOrQ item.put_oi 0)

/-- Per-strike `maxOi = Math.max(callOi, putOi)`. -/
def maxOiAt (fc : List ChainRow) (s : ℚ) : ℚ := max (sumCallOiAt fc s) (sumPutOiAt fc s)

/-- Model of `Math.max(...rawValues.gex, 1)` where `rawValues.gex` collects
`Math.abs(gex)` per strike, in strike-iteration order. -/
def maxValGex (fc : List ChainRow) : ℚ :=
  (((strikesOf fc).map (fun s => |sumGexAt fc s|)).foldr max 1)

/-- Model of `Math.max(...rawValues.dex, 1)`. -/
def maxValDex (fc : List ChainRow) : ℚ :=
  (((strikesOf fc).map (fun s => |sumDexAt fc s|)).foldr max 1)

/-- Model of `Math.max(...rawValues.netOi, 1)`. -/
def maxValNetOi (fc : List ChainRow) : ℚ :=
  (((strikesOf fc).map (fun s => |sumNetOiAt fc s|)).foldr max 1)

/-- Model of `Math.max(...rawValues.oi, 1)` (the oi raw value is
`Math.max(callOi, putOi)`, with no absolute value taken). -/
def maxValOi (fc : List ChainRow) : ℚ :=
  (((strikesOf fc).map (fun s => maxOiAt fc s)).foldr max 1)

/-- Cell entry for the gex and dex metrics: raw value, sign, normalized
intensity, quantized level and bar width. -/
structure ExpCell where
  value : ℚ
  sign : ℤ
  intensity : ℝ
  level : ℤ
  width : ℚ

/-- Cell entry for the netOi metric (the code assigns no intensity or level
to it). -/
structure NetOiCell where
  value : ℚ
  sign : ℤ
  width : ℚ

/-- Cell entry for the callOi and putOi metrics (value and width only; the
code divides the raw value, not its absolute value, by the domain max). -/
structure OiCell where
  value : ℚ
  width : ℚ

/-- One cell of the matrix snapshot, keyed in the source by
`` `${strike}:${expiries[0]}` ``. -/
structure MatrixCell where
  gex : ExpCell
  dex : ExpCell
  netOi : NetOiCell
  callOi : OiCell
  putOi : OiCell
  strike : ℚ
  expiry : String

/-- The fully derived cell for one strike.  The first pass of the source
stores `value`/`sign`; the second pass (`Object.keys(cells).forEach`) adds
`intensity` (via `STRATEGIES[strategy]` with `strategy = 'log'` and domain
minimum `0`), `level = Math.ceil(intensity * 10)` and the widths.  Both
passes are deterministic per strike, so they are fused here. -/
noncomputable def buildCell (fc : List ChainRow) (keyExpiry : String)
    (mG mD mN mO : ℚ) (s : ℚ) : MatrixCell :=
  { gex :=
      { value := sumGexAt fc s
      , sign := jsSign (sumGexAt fc s)
      , intensity := STRATEGIES.log |sumGexAt fc s| 0 mG
      , level := ⌈STRATEGIES.log |sumGexAt fc s| 0 mG * 10⌉
      , width := |sumGexAt fc s| / mG * 100 }
  , dex :=
      { value := sumDexAt fc s
      , sign := jsSign (sumDexAt fc s)
      , intensity := STRATEGIES.log |sumDexAt fc s| 0 mD
      , level := ⌈STRATEGIES.log |sumDexAt fc s| 0 mD * 10⌉
      , width := |sumDexAt fc s| / mD * 100 }
  , netOi :=
      { value := sumNetOiAt fc s
      , sign := jsSign (sumNetOiAt fc s)
      , width := |sumNetOiAt fc s| / mN * 100 }
  , callOi := { value := sumCallOiAt fc s, width := sumCallOiAt fc s / mO * 100 }
  , putOi := { value := sumPutOiAt fc s, width := sumPutOiAt fc s / mO * 100 }
  , strike := s
  , expiry := keyExpiry }

/-- Accumulator of the key-level scan.  The source initializes
`maxNetGexValue = -Infinity`, `minNetGexValue = Infinity`,
`maxCallGexStrike = 0`, `maxPutGexStrike = 0`; the infinities are modelled
by `none`. -/
structure GexScan where
  maxNetGexValue : Option ℚ
  minNetGexValue : Option ℚ
  maxCallGexStrike : ℚ
  maxPutGexStrike : ℚ

/-- Comparison `v > maxNetGexValue` against the running maximum (every
rational exceeds `-Infinity`). -/
def gtRunningMax (v : ℚ) : Option ℚ → Bool
  | none => true
  | some m => decide (m < v)

/-- Comparison `v < minNetGexValue` against the running minimum (every
rational is below `Infinity`). -/
def ltRunningMin (v : ℚ) : Option ℚ → Bool
  | none => true
  | some m => decide (v < m)

/-- One step of the key-level scan over a cell (the two `if` statements of
the `Object.keys(cells).forEach` body that track the extrema). -/
def scanStep (acc : GexScan) (value strike : ℚ) : GexScan :=
  let acc1 :=
    if gtRunningMax value acc.maxNetGexValue then
      { acc with maxNetGexValue := some value, maxCallGexStrike := strike }
    else acc
  if ltRunningMin value acc1.minNetGexValue then
    { acc1 with minNetGexValue := some value, maxPutGexStrike := strike }
  else acc1

/-- The key-level scan over all cells, in `Object.keys(cells)` order (cell
keys are non-integer strings, so this is insertion order: descending
strikes). -/
noncomputable def scanCells (cells : List MatrixCell) : GexScan :=
  cells.foldl (fun acc c => scanStep acc c.gex.value c.strike)
    { maxNetGexValue := none, minNetGexValue := none
    , maxCallGexStrike := 0, maxPutGexStrike := 0 }

/-- The snapshot returned by the builder (`maxVals` flattened into four
fields, `keyLevels` into `resistance`/`support`). -/
structure MatrixSnapshot where
  ticker : String
  spotPrice : ℚ
  strikes : List ℚ
  expiries : List String
  targetExpiry : String
  mode : String
  cells : List MatrixCell
  maxGex : ℚ
  maxDex : ℚ
  maxNetOi : ℚ
  maxOi : ℚ
  resistance : ℚ
  support : ℚ

/-- Assembly of the snapshot from the filtered chain.  `cells` is the map in
insertion order (one cell per strike, strikes descending; the object keys
`` `${strike}:${expiries[0]}` `` are pairwise distinct because the strikes
are).  The cell expiry is `expiries[0]` (only read when cells exist, hence
when `expiries` is non-empty). -/
noncomputable def buildSnapshot (ticker : String) (spotPrice : ℚ)
    (mode targetExpiry : String) (chain : List ChainRow) : MatrixSnapshot :=
  let fc := filterByMode mode targetExpiry chain
  let strikes := strikesOf fc
  let expiries := sortedExpiriesOf fc
  let mG := maxValGex fc
  let mD := maxValDex fc
  let mN := maxValNetOi fc
  let mO := maxValOi fc
  let cells := strikes.map (buildCell fc (expiries.headD "") mG mD mN mO)
  let scan := scanCells cells
  { ticker := ticker
  , spotPrice := spotPrice
  , strikes := strikes
  , expiries := expiries
  , targetExpiry := targetExpiry
  , mode := mode
  , cells := cells
  , maxGex := mG
  , maxDex := mD
  , maxNetOi := mN
  , maxOi := mO
  , resistance := scan.maxCallGexStrike
  , support := scan.maxPutGexStrike }

/-- The matrix projection, `selectors.selectMatrixData(state, symbol)`.
Returns `none` exactly where the source returns `null`
(`!data || !data.chain || !data.chain.length`).  The source fixes
`strategy = 'log'`, so `STRATEGIES[strategy]` is the log strategy, inlined
in `buildCell`. -/
noncomputable def selectMatrixData (state : StoreState) (symbol : Option String) :
    Option MatrixSnapshot :=
  match jsGet state.data (baseSymbolOf state symbol) with
  | none => none
  | some data =>
      if data.chain = [] then none
      else
        some (buildSnapshot (tickerOf state symbol)
          (jsOrQ data.underlying_price data.price)
          (jsOrStr state.gexMode "single")
          (targetExpiryOf state data.chain)
          data.chain)

/-- Evaluation of the projection together with the store state it leaves
behind.  The source function performs no assignment to the store state (it
only reads `state.data`, `state.activeTicker`, `state.gexMode`,
`state.selectedExpiry` and builds fresh objects), so its explicit-state
translation returns the input state unchanged. -/
noncomputable def selectMatrixDataRun (state : StoreState) (symbol : Option String) :
    Option MatrixSnapshot × StoreState :=
  (selectMatrixData state symbol, state)

/-- Lookup of the built cell at a strike (used to state claims about per-cell
raw values; `cells` is keyed by strike since each strike yields one cell). -/
noncomputable def snapCell (o : Option MatrixSnapshot) (s : ℚ) : Option MatrixCell :=
  o.bind (fun snap => snap.cells.find? (fun c => decide (c.strike = s)))

/-!
The store module: centralized state management.  Source:

    setState: (newData, source = 'unknown') => {
        state = { ...state, ...newData };
        if (newData.data) {
            state.exchangeData.bybit.assets.forEach(asset => {
                const symbolKey = asset.symbol.split('/')[0].toUpperCase();
                const assetData = state.data[symbolKey];
                if (assetData) {
                    asset.price = assetData.spotPrice || assetData.price || 0;
                    asset.changePct = assetData.changePct || 0;
                    asset.change = 0;
                }
            });
        }
        listeners.forEach(listener => listener(state));
    },
    getStateInternal: () => state,
    subscribe: (listener) => {
        listeners.add(listener);
        return () => listeners.delete(listener);
    }

Listeners are modelled by identifiers (`ℕ`) held in a list in `Set`
insertion order; `setState` returns, besides the updated store, the
notification sequence it emits synchronously — the ordered list of
(listener, state-passed-to-it) calls.
-/

/-- Partial update object passed to `setState`: each field is present
(`some`) or absent (`none`). -/
structure PartialState where
  data : Option (List (String × AssetData)) := none
  exchangeData : Option ExchangeData := none
  currentExchange : Option String := none
  activeTicker : Option String := none
  currentTab : Option String := none
  gexMode : Option String := none
  selectedExpiry : Option (Option String) := none
deriving DecidableEq

/-- The shallow merge `{ ...state, ...newData }`: a key present in the
update takes its new value, every other top-level key keeps its previous
value. -/
def mergeState (st : StoreState) (nd : PartialState) : StoreState :=
  { data := nd.data.getD st.data
  , exchangeData := nd.exchangeData.getD st.exchangeData
  , currentExchange := nd.currentExchange.getD st.currentExchange
  , activeTicker := nd.activeTicker.getD st.activeTicker
  , currentTab := nd.currentTab.getD st.currentTab
  , gexMode := nd.gexMode.getD st.gexMode
  , selectedExpiry := nd.selectedExpiry.getD st.selectedExpiry }

/-- The body of the synchronization loop over one bybit asset. -/
def syncAsset (dataMap : List (String × AssetData)) (asset : ExchangeAsset) : ExchangeAsset :=
  match jsGet dataMap (upString (splitSlashHead asset.symbol)) with
  | none => asset
  | some assetData =>
      { asset with
        price := jsOrQ (jsOrQ assetData.spotPrice assetData.price) 0
      , changePct := jsOrQ assetData.changePct 0
      , change := 0 }

/-- The `exchangeData.bybit.assets` synchronization `setState` performs when
the update contains a `data` key. -/
def syncExchangeData (ed : ExchangeData) (dataMap : List (String × AssetData)) : ExchangeData :=
  { ed with bybit := { ed.bybit with assets := ed.bybit.assets.map (syncAsset dataMap) } }

/-- The store: current state plus registered listeners (a `Set`, in
insertion order). -/
structure StoreCtx where
  st : StoreState
  listeners : List ℕ
deriving DecidableEq

/-- Model of `store.setState(newData)`: shallow merge, then — when the update
carries a `data` key — the bybit-asset synchronization, then one synchronous
notification per registered listener, each receiving the new state. -/
def setState (ctx : StoreCtx) (newData : PartialState) : StoreCtx × List (ℕ × StoreState) :=
  let merged := mergeState ctx.st newData
  let newState :=
    if newData.data.isSome then
      { merged with exchangeData := syncExchangeData merged.exchangeData merged.data }
    else merged
  ({ st := newState, listeners := ctx.listeners },
   ctx.listeners.map (fun l => (l, newState)))

/-- Model of `store.subscribe(listener)`: `Set.add` (no-op when already
present, else appended in insertion order). -/
def subscribe (ctx : StoreCtx) (l : ℕ) : StoreCtx :=
  if l ∈ ctx.listeners then ctx else { ctx with listeners := ctx.listeners ++ [l] }

/-- Model of invoking the closure `subscribe` returns:
`() => listeners.delete(listener)`. -/
def unsubscribe (ctx : StoreCtx) (l : ℕ) : StoreCtx :=
  { ctx with listeners := ctx.listeners.erase l }

/-!
Characterization of the key-level scan.  `runFirstMax` is the
maximum-tracking half of the fold; the minimum half is the same fold on
negated values.
-/

/-- Reference fold for one half of the key-level scan: the running extreme
value (`none` playing minus infinity) and the strike recorded by the last
strict improvement. -/
def runFirstMax (f : MatrixCell → ℚ) : List MatrixCell → Option ℚ → ℚ → Option ℚ × ℚ
  | [], m, r => (m, r)
  | c :: cs, m, r =>
      if gtRunningMax (f c) m then runFirstMax f cs (some (f c)) c.strike
      else runFirstMax f cs m r

/-!
Concrete example data shared by the closed theorems below.
-/

/-- Exposure row with a given strike, expiry and net GEX. -/
def exRow (s : ℚ) (e : String) (g : ℚ) : ChainRow :=
  { strike := s, expiry := e, net_gex := g }

/-- Store state holding one asset (key "BTC", the active ticker) with the
given chain, mode and selected expiry. -/
def stateWithChain (chain : List ChainRow) (mode : String) (sel : Option String) : StoreState :=
  { data := [("BTC", { underlying_price := 100, chain := chain })]
  , activeTicker := "BTC"
  , gexMode := mode
  , selectedExpiry := sel }

/-- Chain with three expiries at one strike (net GEX 1, 2, 4). -/
def chainThreeExp : List ChainRow :=
  [exRow 100 "2024-01-05" 1, exRow 100 "2024-02-05" 2, exRow 100 "2024-03-05" 4]

/-- Chain with exactly two expiries at one strike (net GEX 3 and 5). -/
def chainTwoExp : List ChainRow :=
  [exRow 100 "2024-01-05" 3, exRow 100 "2024-02-05" 5]

/-- The key-level example of the specification: strikes 100, 105, 110 with
net GEX 50, -30, 80 at a single expiry. -/
def chainKeyLevels : List ChainRow :=
  [exRow 100 "2024-01-05" 50, exRow 105 "2024-01-05" (-30), exRow 110 "2024-01-05" 80]

/-- Snapshot the builder produces for the key-level example chain in single
mode with no selected expiry. -/
noncomputable def snapKeyLevels : MatrixSnapshot :=
  buildSnapshot (tickerOf (stateWithChain chainKeyLevels "single" none) none)
    (jsOrQ (100:ℚ) 0) (jsOrStr "single" "single")
    (targetExpiryOf (stateWithChain chainKeyLevels "single" none) chainKeyLevels)
    chainKeyLevels

/-- The cell of `snapKeyLevels` at strike 110. -/
noncomputable def cellKL110 : MatrixCell :=
  buildCell
    (filterByMode (jsOrStr "single" "single")
      (targetExpiryOf (stateWithChain chainKeyLevels "single" none) chainKeyLevels)
      chainKeyLevels)
    ((sortedExpiriesOf (filterByMode (jsOrStr "single" "single")
      (targetExpiryOf (stateWithChain chainKeyLevels "single" none) chainKeyLevels)
      chainKeyLevels)).headD "")
    (maxValGex (filterByMode (jsOrStr "single" "single")
      (targetExpiryOf (stateWithChain chainKeyLevels "single" none) chainKeyLevels)
      chainKeyLevels))
    (maxValDex (filterByMode (jsOrStr "single" "single")
      (targetExpiryOf (stateWithChain chainKeyLevels "single" none) chainKeyLevels)
      chainKeyLevels))
    (maxValNetOi (filterByMode (jsOrStr "single" "single")
      (targetExpiryOf (stateWithChain chainKeyLevels "single" none) chainKeyLevels)
      chainKeyLevels))
    (maxValOi (filterByMode (jsOrStr "single" "single")
      (targetExpiryOf (stateWithChain chainKeyLevels "single" none) chainKeyLevels)
      chainKeyLevels))
    110

instance : IsTotal ℚ (fun a b : ℚ => b ≤ a) := ⟨fun a b => le_total b a⟩

instance : IsTrans ℚ (fun a b : ℚ => b ≤ a) := ⟨fun _ _ _ h1 h2 => le_trans h2 h1⟩

/-- The cell the builder produces at strike `s` for mode `m`, target expiry
`e` and chain `ch` (abbreviation for statements about concrete runs). -/
noncomputable def builtCellAt (m e : String) (ch : List ChainRow) (s : ℚ) : MatrixCell :=
  buildCell (filterByMode m e ch) ((sortedExpiriesOf (filterByMode m e ch)).headD "")
    (maxValGex (filterByMode m e ch)) (maxValDex (filterByMode m e ch))
    (maxValNetOi (filterByMode m e ch)) (maxValOi (filterByMode m e ch)) s

/-- The bybit "BTC/USDT" exchange asset in its initial shape. -/
def bybitAssetEx : ExchangeAsset := { symbol := "BTC/USDT", name := "Spot" }

/-- Exchange data holding only that bybit asset. -/
def exchangeDataEx : ExchangeData := { bybit := { name := "Bybit", assets := [bybitAssetEx] } }

/-- Store with one bybit asset and no loaded data (pre-sync shape). -/
def ctxSyncEx : StoreCtx :=
  { st := { data := [], exchangeData := exchangeDataEx }, listeners := [0, 1] }

/-- Partial update carrying a `data` key with a "BTC" entry priced 42. -/
def updDataEx : PartialState :=
  { data := some [("BTC", { spotPrice := 42 })] }

/-- Store with two registered listeners and default state. -/
def ctxListeners : StoreCtx := { st := {}, listeners := [3, 7] }

/-!
Lemmas and claim theorems.
-/

/-!
Helper lemmas about the JS string comparison.
-/

lemma lexLtb_irrefl : ∀ l : List Char, lexLtb l l = false := by
  intro l
  induction l with
  | nil => rfl
  | cons c rest ih => simp [lexLtb, ih]

lemma lexLtb_nil_right : ∀ l : List Char, lexLtb l [] = false := by
  intro l
  cases l <;> rfl

lemma lexLtb_asymm : ∀ a b : List Char, lexLtb a b = true → lexLtb b a = false := by
  intro a
  induction a with
  | nil => intro b _; cases b <;> simp [lexLtb]
  | cons c rest ih =>
      intro b hab
      cases b with
      | nil => simp [lexLtb] at hab
      | cons d bs =>
          simp only [lexLtb] at hab ⊢
          rcases lt_trichotomy c.toNat d.toNat with h | h | h
          · simp [h, not_lt.mpr (le_of_lt h)]
          · simp only [h, lt_irrefl, if_false] at hab ⊢
            exact ih bs hab
          · simp [h, not_lt.mpr (le_of_lt h)] at hab

lemma strLeb_refl (a : String) : strLeb a a = true := by
  simp [strLeb, strLtb, lexLtb_irrefl]

lemma strLeb_of_strLtb {a b : String} (h : strLtb a b = true) : strLeb a b = true := by
  simp [strLeb, strLtb] at *
  exact lexLtb_asymm _ _ h

lemma ne_of_strLtb {a b : String} (h : strLtb a b = true) : a ≠ b := by
  intro he
  subst he
  rw [strLtb, lexLtb_irrefl] at h
  exact Bool.false_ne_true h

lemma strLtb_right_ne_empty {a b : String} (h : strLtb a b = true) : b ≠ "" := by
  intro he
  subst he
  simp [strLtb, lexLtb_nil_right] at h

/-!
Helper lemmas about folds, sums and list search.
-/

lemma foldl_add_eq {α : Type} (g : α → ℚ) : ∀ (l : List α) (a : ℚ),
    l.foldl (fun x r => x + g r) a = a + (l.map g).sum := by
  intro l
  induction l with
  | nil => intro a; simp
  | cons x rest ih => intro a; simp [ih, add_assoc]

lemma sumBy_eq (g : ChainRow → ℚ) (fc : List ChainRow) (s : ℚ) :
    sumBy g fc s = ((strikeItems fc s).map g).sum := by
  simp [sumBy, foldl_add_eq]

lemma foldr_max_init_le (l : List ℚ) (b : ℚ) : b ≤ l.foldr max b := by
  induction l with
  | nil => simp
  | cons x rest ih => exact le_trans ih (le_max_right x _)

lemma foldr_max_mem_le {l : List ℚ} {x : ℚ} (b : ℚ) (hx : x ∈ l) : x ≤ l.foldr max b := by
  induction l with
  | nil => simp at hx
  | cons y rest ih =>
      rcases List.mem_cons.mp hx with h | h
      · subst h; exact le_max_left x _
      · exact le_trans (ih h) (le_max_right y _)

lemma foldr_max_eq_or_mem (l : List ℚ) (b : ℚ) : l.foldr max b = b ∨ l.foldr max b ∈ l := by
  induction l with
  | nil => left; rfl
  | cons x rest ih =>
      rcases le_total (rest.foldr max b) x with h | h
      · right
        have hfold : (x :: rest).foldr max b = x := by simp [max_eq_left h]
        rw [hfold]
        exact List.mem_cons_self x rest
      · have hfold : (x :: rest).foldr max b = rest.foldr max b := by simp [max_eq_right h]
        rcases ih with h2 | h2
        · left; rw [hfold, h2]
        · right; rw [hfold]; exact List.mem_cons_of_mem x h2

lemma find?_congr {α : Type} (p q : α → Bool) : ∀ (l : List α),
    (∀ x ∈ l, p x = q x) → l.find? p = l.find? q := by
  intro l
  induction l with
  | nil => intro _; rfl
  | cons x rest ih =>
      intro h
      have hx := h x (List.mem_cons_self x rest)
      by_cases hp : p x = true
      · rw [List.find?_cons_of_pos _ hp, List.find?_cons_of_pos _ (hx ▸ hp)]
      · rw [List.find?_cons_of_neg _ (by simpa using hp),
          List.find?_cons_of_neg _ (by rw [← hx]; simpa using hp)]
        exact ih (fun y hy => h y (List.mem_cons_of_mem x hy))

lemma find?_eq_self_of_mem {s : ℚ} : ∀ (l : List ℚ), s ∈ l →
    l.find? (fun x => decide (x = s)) = some s := by
  intro l
  induction l with
  | nil => intro h; simp at h
  | cons x rest ih =>
      intro h
      by_cases hx : x = s
      · subst hx; simp [List.find?_cons_of_pos]
      · rw [List.find?_cons_of_neg _ (by simpa using hx)]
        rcases List.mem_cons.mp h with h1 | h1
        · exact absurd h1.symm hx
        · exact ih h1

lemma runFirstMax_all_le (f : MatrixCell → ℚ) : ∀ (l : List MatrixCell) (v r : ℚ),
    (∀ c ∈ l, f c ≤ v) → runFirstMax f l (some v) r = (some v, r) := by
  intro l
  induction l with
  | nil => intro v r _; rfl
  | cons c cs ih =>
      intro v r h
      have hc : ¬(v < f c) := not_lt.mpr (h c (List.mem_cons_self c cs))
      simp only [runFirstMax, gtRunningMax, hc, decide_False, Bool.false_eq_true, if_false]
      exact ih v r (fun x hx => h x (List.mem_cons_of_mem c hx))

lemma runFirstMax_spec (f : MatrixCell → ℚ) : ∀ (l : List MatrixCell) (v r : ℚ),
    (∃ c ∈ l, v < f c) →
    ∃ c, l.find? (fun x => decide (v < f x ∧ ∀ y ∈ l, f y ≤ f x)) = some c ∧
      (runFirstMax f l (some v) r).2 = c.strike := by
  intro l
  induction l with
  | nil => intro v r h; simp at h
  | cons c cs ih =>
      intro v r hex
      by_cases hvc : v < f c
      · by_cases hall : ∀ y ∈ cs, f y ≤ f c
        · refine ⟨c, ?_, ?_⟩
          · apply List.find?_cons_of_pos
            apply decide_eq_true
            refine ⟨hvc, fun y hy => ?_⟩
            rcases List.mem_cons.mp hy with h1 | h1
            · exact h1 ▸ le_refl _
            · exact hall y h1
          · simp only [runFirstMax, gtRunningMax, hvc, decide_True, if_true]
            rw [runFirstMax_all_le f cs (f c) c.strike hall]
        · push_neg at hall
          obtain ⟨y0, hy0, hgt⟩ := hall
          replace hgt : f c < f y0 := hgt
          obtain ⟨c1, hfind, hsnd⟩ := ih (f c) c.strike ⟨y0, hy0, hgt⟩
          refine ⟨c1, ?_, ?_⟩
          · rw [List.find?_cons_of_neg]
            · rw [find?_congr _ _ cs ?_]
              · exact hfind
              · intro x hx
                apply decide_eq_decide.mpr
                constructor
                · rintro ⟨hv, hall2⟩
                  exact ⟨lt_of_lt_of_le hgt (hall2 y0 (List.mem_cons_of_mem c hy0)),
                    fun y hy => hall2 y (List.mem_cons_of_mem c hy)⟩
                · rintro ⟨hc1, hall2⟩
                  refine ⟨lt_trans hvc hc1, fun y hy => ?_⟩
                  rcases List.mem_cons.mp hy with h1 | h1
                  · exact h1 ▸ le_of_lt hc1
                  · exact hall2 y h1
            · simp only [decide_eq_true_eq]
              rintro ⟨_, hall2⟩
              exact absurd (hall2 y0 (List.mem_cons_of_mem c hy0)) (not_le.mpr hgt)
          · simp only [runFirstMax, gtRunningMax, hvc, decide_True, if_true]
            exact hsnd
      · have hex2 : ∃ x ∈ cs, v < f x := by
          obtain ⟨x, hx, hvx⟩ := hex
          rcases List.mem_cons.mp hx with h1 | h1
          · exact absurd (h1 ▸ hvx) hvc
          · exact ⟨x, h1, hvx⟩
        obtain ⟨c1, hfind, hsnd⟩ := ih v r hex2
        refine ⟨c1, ?_, ?_⟩
        · rw [List.find?_cons_of_neg]
          · rw [find?_congr _ _ cs ?_]
            · exact hfind
            · intro x hx
              apply decide_eq_decide.mpr
              constructor
              · rintro ⟨hv, hall2⟩
                exact ⟨hv, fun y hy => hall2 y (List.mem_cons_of_mem c hy)⟩
              · rintro ⟨hv, hall2⟩
                refine ⟨hv, fun y hy => ?_⟩
                rcases List.mem_cons.mp hy with h1 | h1
                · exact h1 ▸ le_trans (not_lt.mp hvc) (le_of_lt hv)
                · exact hall2 y h1
          · simp only [decide_eq_true_eq]
            rintro ⟨hv, _⟩
            exact hvc hv
        · simp only [runFirstMax, gtRunningMax, hvc, decide_False, Bool.false_eq_true, if_false]
          exact hsnd

lemma runFirstMax_none_spec (f : MatrixCell → ℚ) (l : List MatrixCell) (r : ℚ)
    (h : l ≠ []) :
    ∃ c, l.find? (fun x => decide (∀ y ∈ l, f y ≤ f x)) = some c ∧
      (runFirstMax f l none r).2 = c.strike := by
  cases l with
  | nil => exact absurd rfl h
  | cons c cs =>
      have hstep : runFirstMax f (c :: cs) none r = runFirstMax f cs (some (f c)) c.strike := by
        simp [runFirstMax, gtRunningMax]
      by_cases hall : ∀ y ∈ cs, f y ≤ f c
      · refine ⟨c, ?_, ?_⟩
        · apply List.find?_cons_of_pos
          apply decide_eq_true
          intro y hy
          rcases List.mem_cons.mp hy with h1 | h1
          · exact h1 ▸ le_refl _
          · exact hall y h1
        · rw [hstep, runFirstMax_all_le f cs (f c) c.strike hall]
      · push_neg at hall
        obtain ⟨y0, hy0, hgt⟩ := hall
        replace hgt : f c < f y0 := hgt
        obtain ⟨c1, hfind, hsnd⟩ := runFirstMax_spec f cs (f c) c.strike ⟨y0, hy0, hgt⟩
        refine ⟨c1, ?_, ?_⟩
        · rw [List.find?_cons_of_neg]
          · rw [find?_congr _ _ cs ?_]
            · exact hfind
            · intro x hx
              apply decide_eq_decide.mpr
              constructor
              · intro hall2
                exact ⟨lt_of_lt_of_le hgt (hall2 y0 (List.mem_cons_of_mem c hy0)),
                  fun y hy => hall2 y (List.mem_cons_of_mem c hy)⟩
              · rintro ⟨hc1, hall2⟩
                intro y hy
                rcases List.mem_cons.mp hy with h1 | h1
                · exact h1 ▸ le_of_lt hc1
                · exact hall2 y h1
          · simp only [decide_eq_true_eq]
            intro hall2
            exact absurd (hall2 y0 (List.mem_cons_of_mem c hy0)) (not_le.mpr hgt)
        · rw [hstep]
          exact hsnd

lemma negOpt_negOpt (mn : Option ℚ) :
    Option.map (fun q : ℚ => -q) (Option.map (fun q : ℚ => -q) mn) = mn := by
  cases mn <;> simp

lemma gtRunningMax_neg (v : ℚ) (mn : Option ℚ) :
    gtRunningMax (-v) (Option.map (fun q : ℚ => -q) mn) = ltRunningMin v mn := by
  cases mn with
  | none => rfl
  | some m => simp [gtRunningMax, ltRunningMin]

lemma scan_foldl_eq (cells : List MatrixCell) : ∀ (mx mn : Option ℚ) (r s : ℚ),
    cells.foldl (fun acc c => scanStep acc c.gex.value c.strike) ⟨mx, mn, r, s⟩ =
    ⟨(runFirstMax (fun c => c.gex.value) cells mx r).1,
     Option.map (fun q : ℚ => -q)
       ((runFirstMax (fun c => -c.gex.value) cells (Option.map (fun q : ℚ => -q) mn) s).1),
     (runFirstMax (fun c => c.gex.value) cells mx r).2,
     (runFirstMax (fun c => -c.gex.value) cells (Option.map (fun q : ℚ => -q) mn) s).2⟩ := by
  induction cells with
  | nil =>
      intro mx mn r s
      simp [runFirstMax, negOpt_negOpt]
  | cons c cs ih =>
      intro mx mn r s
      have hmin := gtRunningMax_neg c.gex.value mn
      by_cases h1 : gtRunningMax c.gex.value mx = true
      · by_cases h2 : ltRunningMin c.gex.value mn = true
        · simp only [List.foldl_cons, scanStep, h1, if_true, GexScan.mk.injEq, h2,
            runFirstMax, hmin]
          exact ih (some c.gex.value) (some c.gex.value) c.strike c.strike
        · simp only [List.foldl_cons, scanStep, h1, if_true, GexScan.mk.injEq, h2,
            Bool.false_eq_true, if_false, runFirstMax, hmin]
          exact ih (some c.gex.value) mn c.strike s
      · by_cases h2 : ltRunningMin c.gex.value mn = true
        · simp only [List.foldl_cons, scanStep, h1, Bool.false_eq_true, if_false,
            GexScan.mk.injEq, h2, if_true, runFirstMax, hmin]
          exact ih mx (some c.gex.value) r c.strike
        · simp only [List.foldl_cons, scanStep, h1, Bool.false_eq_true, if_false,
            GexScan.mk.injEq, h2, runFirstMax, hmin]
          exact ih mx mn r s

lemma scanCells_resistance (cells : List MatrixCell) (h : cells ≠ []) :
    ∃ c, cells.find? (fun x => decide (∀ y ∈ cells, y.gex.value ≤ x.gex.value)) = some c ∧
      (scanCells cells).maxCallGexStrike = c.strike := by
  obtain ⟨c, hfind, hsnd⟩ := runFirstMax_none_spec (fun c => c.gex.value) cells 0 h
  refine ⟨c, hfind, ?_⟩
  rw [scanCells, scan_foldl_eq]
  exact hsnd

lemma scanCells_support (cells : List MatrixCell) (h : cells ≠ []) :
    ∃ c, cells.find? (fun x => decide (∀ y ∈ cells, x.gex.value ≤ y.gex.value)) = some c ∧
      (scanCells cells).maxPutGexStrike = c.strike := by
  obtain ⟨c, hfind, hsnd⟩ := runFirstMax_none_spec (fun c => -c.gex.value) cells 0 h
  refine ⟨c, ?_, ?_⟩
  · rw [find?_congr _ _ cells ?_]
    · exact hfind
    · intro x hx
      apply decide_eq_decide.mpr
      constructor
      · intro hall y hy
        exact neg_le_neg (hall y hy)
      · intro hall y hy
        have := hall y hy
        linarith
  · rw [scanCells, scan_foldl_eq]
    exact hsnd

/-!
Projection lemmas for the built snapshot and the projection function.
-/

lemma buildSnapshot_cells (tk : String) (sp : ℚ) (m e : String) (ch : List ChainRow) :
    (buildSnapshot tk sp m e ch).cells =
      (strikesOf (filterByMode m e ch)).map
        (buildCell (filterByMode m e ch) ((sortedExpiriesOf (filterByMode m e ch)).headD "")
          (maxValGex (filterByMode m e ch)) (maxValDex (filterByMode m e ch))
          (maxValNetOi (filterByMode m e ch)) (maxValOi (filterByMode m e ch))) := rfl

lemma buildSnapshot_strikes (tk : String) (sp : ℚ) (m e : String) (ch : List ChainRow) :
    (buildSnapshot tk sp m e ch).strikes = strikesOf (filterByMode m e ch) := rfl

lemma buildSnapshot_expiries (tk : String) (sp : ℚ) (m e : String) (ch : List ChainRow) :
    (buildSnapshot tk sp m e ch).expiries = sortedExpiriesOf (filterByMode m e ch) := rfl

lemma buildSnapshot_maxGex (tk : String) (sp : ℚ) (m e : String) (ch : List ChainRow) :
    (buildSnapshot tk sp m e ch).maxGex = maxValGex (filterByMode m e ch) := rfl

lemma buildSnapshot_maxDex (tk : String) (sp : ℚ) (m e : String) (ch : List ChainRow) :
    (buildSnapshot tk sp m e ch).maxDex = maxValDex (filterByMode m e ch) := rfl

lemma buildSnapshot_maxNetOi (tk : String) (sp : ℚ) (m e : String) (ch : List ChainRow) :
    (buildSnapshot tk sp m e ch).maxNetOi = maxValNetOi (filterByMode m e ch) := rfl

lemma buildSnapshot_maxOi (tk : String) (sp : ℚ) (m e : String) (ch : List ChainRow) :
    (buildSnapshot tk sp m e ch).maxOi = maxValOi (filterByMode m e ch) := rfl

lemma buildSnapshot_resistance (tk : String) (sp : ℚ) (m e : String) (ch : List ChainRow) :
    (buildSnapshot tk sp m e ch).resistance =
      (scanCells (buildSnapshot tk sp m e ch).cells).maxCallGexStrike := rfl

lemma buildSnapshot_support (tk : String) (sp : ℚ) (m e : String) (ch : List ChainRow) :
    (buildSnapshot tk sp m e ch).support =
      (scanCells (buildSnapshot tk sp m e ch).cells).maxPutGexStrike := rfl

lemma selectMatrixData_eq_some {state : StoreState} {symbol : Option String}
    {snap : MatrixSnapshot} (h : selectMatrixData state symbol = some snap) :
    ∃ data, jsGet state.data (baseSymbolOf state symbol) = some data ∧ data.chain ≠ [] ∧
      snap = buildSnapshot (tickerOf state symbol) (jsOrQ data.underlying_price data.price)
        (jsOrStr state.gexMode "single") (targetExpiryOf state data.chain) data.chain := by
  unfold selectMatrixData at h
  cases hg : jsGet state.data (baseSymbolOf state symbol) with
  | none => rw [hg] at h; simp at h
  | some data =>
      rw [hg] at h
      by_cases hc : data.chain = []
      · simp [hc] at h
      · refine ⟨data, rfl, hc, ?_⟩
        simp only [hc, if_false, Option.some.injEq] at h
        exact h.symm

lemma selectMatrixData_none_of_nil {state : StoreState} {symbol : Option String}
    {data : AssetData} (hg : jsGet state.data (baseSymbolOf state symbol) = some data)
    (hc : data.chain = []) : selectMatrixData state symbol = none := by
  unfold selectMatrixData
  rw [hg]
  simp [hc]

lemma selectMatrixData_none_of_absent {state : StoreState} {symbol : Option String}
    (hg : jsGet state.data (baseSymbolOf state symbol) = none) :
    selectMatrixData state symbol = none := by
  unfold selectMatrixData
  rw [hg]

lemma selectMatrixData_some_of_chain {state : StoreState} {symbol : Option String}
    {data : AssetData} (hg : jsGet state.data (baseSymbolOf state symbol) = some data)
    (hc : data.chain ≠ []) :
    selectMatrixData state symbol =
      some (buildSnapshot (tickerOf state symbol) (jsOrQ data.underlying_price data.price)
        (jsOrStr state.gexMode "single") (targetExpiryOf state data.chain) data.chain) := by
  unfold selectMatrixData
  rw [hg]
  simp [hc]

lemma mem_strikesOf {s : ℚ} {fc : List ChainRow} :
    s ∈ strikesOf fc ↔ ∃ r ∈ fc, r.strike = s := by
  unfold strikesOf
  rw [(List.perm_insertionSort _ _).mem_iff, List.mem_dedup, List.mem_map]

lemma comp_strike_buildCell (fc : List ChainRow) (ke : String) (mG mD mN mO s : ℚ) :
    (buildCell fc ke mG mD mN mO s).strike = s := rfl

lemma snapCell_some_of_mem {tk : String} {sp : ℚ} {m e : String} {ch : List ChainRow}
    {s : ℚ} (hs : s ∈ strikesOf (filterByMode m e ch)) :
    snapCell (some (buildSnapshot tk sp m e ch)) s =
      some (buildCell (filterByMode m e ch)
        ((sortedExpiriesOf (filterByMode m e ch)).headD "")
        (maxValGex (filterByMode m e ch)) (maxValDex (filterByMode m e ch))
        (maxValNetOi (filterByMode m e ch)) (maxValOi (filterByMode m e ch)) s) := by
  have hcomp : ((fun c : MatrixCell => decide (c.strike = s)) ∘
      (buildCell (filterByMode m e ch) ((sortedExpiriesOf (filterByMode m e ch)).headD "")
        (maxValGex (filterByMode m e ch)) (maxValDex (filterByMode m e ch))
        (maxValNetOi (filterByMode m e ch)) (maxValOi (filterByMode m e ch)))) =
      (fun x : ℚ => decide (x = s)) := rfl
  simp only [snapCell, Option.some_bind, buildSnapshot_cells, List.find?_map, hcomp]
  rw [find?_eq_self_of_mem _ hs]
  rfl

lemma snapCell_none_of_not_mem {tk : String} {sp : ℚ} {m e : String} {ch : List ChainRow}
    {s : ℚ} (hs : s ∉ strikesOf (filterByMode m e ch)) :
    snapCell (some (buildSnapshot tk sp m e ch)) s = none := by
  have hcomp : ((fun c : MatrixCell => decide (c.strike = s)) ∘
      (buildCell (filterByMode m e ch) ((sortedExpiriesOf (filterByMode m e ch)).headD "")
        (maxValGex (filterByMode m e ch)) (maxValDex (filterByMode m e ch))
        (maxValNetOi (filterByMode m e ch)) (maxValOi (filterByMode m e ch)))) =
      (fun x : ℚ => decide (x = s)) := rfl
  simp only [snapCell, Option.some_bind, buildSnapshot_cells, List.find?_map, hcomp]
  have : List.find? (fun x : ℚ => decide (x = s)) (strikesOf (filterByMode m e ch)) = none := by
    rw [List.find?_eq_none]
    intro x hx
    simp only [decide_eq_true_eq]
    intro hxs
    exact hs (hxs ▸ hx)
  rw [this]
  rfl

/-!
Bounds of the normalization strategies and of the derived cell fields.
-/

lemma log_strategy_bounds (v mn mx : ℚ) :
    (0:ℝ) ≤ STRATEGIES.log v mn mx ∧ STRATEGIES.log v mn mx ≤ 1 := by
  unfold STRATEGIES.log
  split
  · norm_num
  · split
    · norm_num
    · exact ⟨le_max_left 0 _, max_le (by norm_num) (min_le_left 1 _)⟩

lemma linear_strategy_bounds (v mn mx : ℚ) :
    0 ≤ STRATEGIES.linear v mn mx ∧ STRATEGIES.linear v mn mx ≤ 1 := by
  unfold STRATEGIES.linear
  split
  · norm_num
  · exact ⟨le_max_left 0 _, max_le (by norm_num) (min_le_left 1 _)⟩

lemma ceil_level_bounds {i : ℝ} (h0 : 0 ≤ i) (h1 : i ≤ 1) :
    (0:ℤ) ≤ ⌈i * 10⌉ ∧ ⌈i * 10⌉ ≤ 10 := by
  constructor
  · exact Int.ceil_nonneg (by nlinarith)
  · rw [Int.ceil_le]
    push_cast
    nlinarith

/-!
Decomposition of the cumulative filter into single-expiry filters.
-/

lemma filterByMode_single (t : String) (chain : List ChainRow) :
    filterByMode "single" t chain = chain.filter (fun item => decide (item.expiry = t)) := by
  unfold filterByMode
  congr 1

lemma filterByMode_cumulative (t : String) (chain : List ChainRow) :
    filterByMode "cumulative" t chain = chain.filter (fun item => strLeb item.expiry t) := by
  unfold filterByMode
  congr 1

lemma filterByMode_other {m : String} (hm1 : m ≠ "single") (hm2 : m ≠ "cumulative")
    (t : String) (chain : List ChainRow) : filterByMode m t chain = chain := by
  unfold filterByMode
  have : ∀ item : ChainRow,
      (if m = "single" then decide (item.expiry = t)
       else if m = "cumulative" then strLeb item.expiry t else true) = true := by
    intro item
    rw [if_neg hm1, if_neg hm2]
  simp only [this]
  exact List.filter_true chain

lemma sum_split_aux (g : ChainRow → ℚ) (P P1 P2 : ChainRow → Bool) :
    ∀ l : List ChainRow,
    (∀ r ∈ l, (P r = (P1 r || P2 r)) ∧ ¬(P1 r = true ∧ P2 r = true)) →
    ((l.filter P).map g).sum = ((l.filter P1).map g).sum + ((l.filter P2).map g).sum := by
  intro l
  induction l with
  | nil => intro _; simp
  | cons r t ih =>
      intro h
      obtain ⟨heq, hnot⟩ := h r (List.mem_cons_self r t)
      have iht := ih (fun x hx => h x (List.mem_cons_of_mem r hx))
      cases h1 : P1 r with
      | true =>
          cases h2 : P2 r with
          | true => exact absurd ⟨h1, h2⟩ hnot
          | false =>
              have hP : P r = true := by rw [heq, h1]; rfl
              simp only [List.filter_cons, hP, h1, h2, if_true, Bool.false_eq_true, if_false,
                List.map_cons, List.sum_cons, iht]
              ring
      | false =>
          cases h2 : P2 r with
          | true =>
              have hP : P r = true := by rw [heq, h1, h2]; rfl
              simp only [List.filter_cons, hP, h1, h2, if_true, Bool.false_eq_true, if_false,
                List.map_cons, List.sum_cons, iht]
              ring
          | false =>
              have hP : P r = false := by rw [heq, h1, h2]; rfl
              simp only [List.filter_cons, hP, h1, h2, Bool.false_eq_true, if_false, iht]

lemma sumBy_cumulative_split (g : ChainRow → ℚ) {e1 e2 : String}
    (hlt : strLtb e1 e2 = true) (s : ℚ) (chain : List ChainRow)
    (hexp : ∀ r ∈ chain, r.expiry = e1 ∨ r.expiry = e2) :
    sumBy g (filterByMode "cumulative" e2 chain) s =
      sumBy g (filterByMode "single" e1 chain) s +
      sumBy g (filterByMode "single" e2 chain) s := by
  have hne : e1 ≠ e2 := ne_of_strLtb hlt
  have hle : strLeb e1 e2 = true := strLeb_of_strLtb hlt
  rw [sumBy_eq, sumBy_eq, sumBy_eq, filterByMode_single, filterByMode_single,
    filterByMode_cumulative]
  unfold strikeItems
  rw [List.filter_filter, List.filter_filter, List.filter_filter]
  apply sum_split_aux
  intro r hr
  rcases hexp r hr with he | he <;> rw [he]
  · refine ⟨?_, ?_⟩
    · simp [hle, decide_eq_false hne]
    · rintro ⟨h1, h2⟩
      rw [Bool.and_eq_true] at h2
      exact hne (of_decide_eq_true h2.2)
  · refine ⟨?_, ?_⟩
    · simp [strLeb_refl, decide_eq_false (Ne.symm hne)]
    · rintro ⟨h1, h2⟩
      rw [Bool.and_eq_true] at h1
      exact (Ne.symm hne) (of_decide_eq_true h1.2)

/-!
Claim theorems.
-/

/-- Claim C2, counterexample: the `percentile` strategy is not bounded below
by 0 on all documented inputs.  At value `0` (which is `≥ 0`) and the sorted
two-element population `[1, 2]`, the `indexOf` lookup misses, returns `-1`,
and the strategy yields `-1 / (2 - 1) = -1 < 0`. -/
theorem claim2_percentile_below_zero :
    STRATEGIES.percentile 0 [1, 2] = -1 ∧ ¬(0 ≤ STRATEGIES.percentile 0 [1, 2]) := by
  have h : STRATEGIES.percentile 0 [1, 2] = -1 := by
    norm_num [STRATEGIES.percentile, jsIndexOf]
  exact ⟨h, by rw [h]; norm_num⟩

/-- Claim C2 (amended): the `linear` and `log` strategies return an intensity
in `[0, 1]` on every documented input (any value; for `log`, domain bounds
taken nonnegative as the builder supplies them), degenerate inputs return 0
(`max = min` for `linear`, `value ≤ 0` for `log`, the empty population for
`percentile`), and no strategy throws (all are total functions).  The
`percentile` strategy is bounded in `[0, 1]` only for a value that occurs in
a population of at least two elements; a missing value yields a negative
intensity (see the counterexample). -/
theorem claim2_strategy_bounds :
    (∀ v mn mx : ℚ, 0 ≤ STRATEGIES.linear v mn mx ∧ STRATEGIES.linear v mn mx ≤ 1) ∧
    (∀ v mn mx : ℚ, mx = mn → STRATEGIES.linear v mn mx = 0) ∧
    (∀ v mn mx : ℚ, 0 ≤ mn → 0 ≤ mx →
      (0:ℝ) ≤ STRATEGIES.log v mn mx ∧ STRATEGIES.log v mn mx ≤ 1) ∧
    (∀ v mn mx : ℚ, v ≤ 0 → STRATEGIES.log v mn mx = 0) ∧
    (∀ v : ℚ, STRATEGIES.percentile v [] = 0) ∧
    (∀ (v : ℚ) (pop : List ℚ), v ∈ pop → 2 ≤ pop.length →
      0 ≤ STRATEGIES.percentile v pop ∧ STRATEGIES.percentile v pop ≤ 1) := by
  refine ⟨?_, ?_, ?_, ?_, ?_, ?_⟩
  · intro v mn mx
    exact linear_strategy_bounds v mn mx
  · intro v mn mx h
    unfold STRATEGIES.linear
    rw [if_pos h]
  · intro v mn mx _ _
    exact log_strategy_bounds v mn mx
  · intro v mn mx h
    unfold STRATEGIES.log
    rw [if_pos h]
  · intro v
    rfl
  · intro v pop hmem hlen
    have hidx : 0 ≤ jsIndexOf pop v ∧ jsIndexOf pop v < pop.length := by
      clear hlen
      induction pop with
      | nil => simp at hmem
      | cons x rest ih =>
          by_cases hx : x = v
          · constructor <;> simp [jsIndexOf, hx]
          · have hmem2 : v ∈ rest := by
              rcases List.mem_cons.mp hmem with h1 | h1
              · exact absurd h1.symm hx
              · exact h1
            obtain ⟨h0, hlt⟩ := ih hmem2
            have hne : jsIndexOf rest v ≠ -1 := by omega
            constructor
            · simp only [jsIndexOf, hx, if_false, if_neg hne]
              omega
            · simp only [jsIndexOf, hx, if_false, if_neg hne, List.length_cons]
              push_cast
              omega
    obtain ⟨h0, hlt⟩ := hidx
    have hden : (0:ℚ) < (pop.length : ℚ) - 1 := by
      have : (2:ℚ) ≤ (pop.length : ℚ) := by exact_mod_cast hlen
      linarith
    have hlen0 : pop.length ≠ 0 := by omega
    unfold STRATEGIES.percentile
    rw [if_neg hlen0]
    constructor
    · apply div_nonneg _ (le_of_lt hden)
      exact_mod_cast h0
    · rw [div_le_one hden]
      have : (jsIndexOf pop v : ℚ) ≤ (pop.length : ℚ) - 1 := by
        have : jsIndexOf pop v ≤ (pop.length : ℤ) - 1 := by omega
        exact_mod_cast this
      exact this

/-- Claim C2, witness: the amended boundedness theorem applied at concrete
inputs (the specification examples `linear(50, 0, 100)`, `log(0, 0, 1000)`,
and the in-range percentile lookup `percentile(2, [1, 2])`). -/
theorem claim2_strategy_bounds_witness :
    (0 ≤ STRATEGIES.linear 50 0 100 ∧ STRATEGIES.linear 50 0 100 ≤ 1) ∧
    ((0:ℝ) ≤ STRATEGIES.log 1000 0 1000 ∧ STRATEGIES.log 1000 0 1000 ≤ 1) ∧
    STRATEGIES.log 0 0 1000 = 0 ∧
    (0 ≤ STRATEGIES.percentile 2 [1, 2] ∧ STRATEGIES.percentile 2 [1, 2] ≤ 1) :=
  ⟨claim2_strategy_bounds.1 50 0 100,
   claim2_strategy_bounds.2.2.1 1000 0 1000 (by norm_num) (by norm_num),
   claim2_strategy_bounds.2.2.2.1 0 0 1000 (by norm_num),
   claim2_strategy_bounds.2.2.2.2.2 2 [1, 2] (by norm_num) (by norm_num)⟩

/-- Claim C3, counterexample: on an empty row set the builder does not
return a snapshot with empty strikes/expiries/cells — it returns `null`
(the `!data.chain.length` guard), so no snapshot of any shape is
produced. -/
theorem claim3_empty_rows_no_snapshot :
    selectMatrixData (stateWithChain [] "single" none) none = none ∧
    ∀ snap : MatrixSnapshot,
      ¬(selectMatrixData (stateWithChain [] "single" none) none = some snap ∧
        snap.strikes = [] ∧ snap.expiries = [] ∧ snap.cells = []) := by
  have h : selectMatrixData (stateWithChain [] "single" none) none = none := rfl
  refine ⟨h, ?_⟩
  rintro snap ⟨hsome, _⟩
  rw [h] at hsome
  exact Option.noConfusion hsome

/-- Claim C3 (amended): when the ticker resolves to loaded data whose chain
of exposure rows is empty, the builder returns `null` (`none`) — the
DataAbsent outcome — and, being a total function, it never throws. -/
theorem claim3_empty_rows_null (state : StoreState) (symbol : Option String)
    (data : AssetData) (hg : jsGet state.data (baseSymbolOf state symbol) = some data)
    (hc : data.chain = []) : selectMatrixData state symbol = none :=
  selectMatrixData_none_of_nil hg hc

/-- Claim C3, witness: the amended theorem applied to a store whose "BTC"
asset (reached through normalization of the ticker "BTCUSDT") has an empty
chain. -/
theorem claim3_empty_rows_null_witness :
    selectMatrixData (stateWithChain [] "cumulative" none) (some "BTCUSDT") = none :=
  claim3_empty_rows_null (stateWithChain [] "cumulative" none) (some "BTCUSDT")
    { underlying_price := 100, chain := [] } (by decide) rfl

/-- Claim C8: the projection returns `null` exactly when the ticker has no
exposure rows loaded (no data entry at the resolved symbol, or an empty
chain), and evaluating it leaves the global store state unchanged — the
source performs no assignment to the state, so its explicit-state run
returns the input state as-is. -/
theorem claim8_projection_contract (state : StoreState) (symbol : Option String) :
    (selectMatrixDataRun state symbol).2 = state ∧
    ((selectMatrixDataRun state symbol).1 = none ↔
      ∀ data, jsGet state.data (baseSymbolOf state symbol) = some data → data.chain = []) := by
  refine ⟨rfl, ?_⟩
  show selectMatrixData state symbol = none ↔ _
  cases hg : jsGet state.data (baseSymbolOf state symbol) with
  | none =>
      rw [selectMatrixData_none_of_absent hg]
      simp only [true_iff]
      intro d hd
      exact Option.noConfusion hd
  | some data =>
      by_cases hc : data.chain = []
      · rw [selectMatrixData_none_of_nil hg hc]
        simp only [true_iff]
        intro d hd
        rw [Option.some.injEq] at hd
        exact hd ▸ hc
      · rw [selectMatrixData_some_of_chain hg hc]
        constructor
        · intro h
          exact Option.noConfusion h
        · intro h
          exact absurd (h data rfl) hc

/-!
Projection equations of `buildCell` (all definitional) and width bounds.
-/

lemma buildCell_gex_value (fc : List ChainRow) (ke : String) (mG mD mN mO s : ℚ) :
    (buildCell fc ke mG mD mN mO s).gex.value = sumGexAt fc s := rfl

lemma buildCell_dex_value (fc : List ChainRow) (ke : String) (mG mD mN mO s : ℚ) :
    (buildCell fc ke mG mD mN mO s).dex.value = sumDexAt fc s := rfl

lemma buildCell_netOi_value (fc : List ChainRow) (ke : String) (mG mD mN mO s : ℚ) :
    (buildCell fc ke mG mD mN mO s).netOi.value = sumNetOiAt fc s := rfl

lemma buildCell_callOi_value (fc : List ChainRow) (ke : String) (mG mD mN mO s : ℚ) :
    (buildCell fc ke mG mD mN mO s).callOi.value = sumCallOiAt fc s := rfl

lemma buildCell_putOi_value (fc : List ChainRow) (ke : String) (mG mD mN mO s : ℚ) :
    (buildCell fc ke mG mD mN mO s).putOi.value = sumPutOiAt fc s := rfl

lemma width_bounds {v m : ℚ} (h1 : 1 ≤ m) (h0 : 0 ≤ v) (h2 : v ≤ m) :
    0 ≤ v / m * 100 ∧ v / m * 100 ≤ 100 := by
  have hm : (0:ℚ) < m := lt_of_lt_of_le zero_lt_one h1
  constructor
  · positivity
  · have hr : v / m ≤ 1 := (div_le_one hm).mpr h2
    linarith

lemma maxFold_props (strikes : List ℚ) (mag : ℚ → ℚ) :
    1 ≤ (strikes.map mag).foldr max 1 ∧
    (∀ s ∈ strikes, mag s ≤ (strikes.map mag).foldr max 1) ∧
    ((strikes.map mag).foldr max 1 = 1 ∨
      ∃ s ∈ strikes, mag s = (strikes.map mag).foldr max 1) := by
  refine ⟨foldr_max_init_le _ 1,
    fun s hs => foldr_max_mem_le 1 (List.mem_map_of_mem mag hs), ?_⟩
  rcases foldr_max_eq_or_mem (strikes.map mag) 1 with h | h
  · exact Or.inl h
  · right
    obtain ⟨s, hs, he⟩ := List.mem_map.mp h
    exact ⟨s, hs, he⟩

/-- Core domain-floor properties of every built snapshot (shared by the
domain and cell-invariant theorems).  The domain minimum is the literal `0`
the builder passes to the strategy
(recorded in each cell's intensity), and the domain maximum equals the
maximum of the visible magnitudes floored at 1 — it bounds every visible
magnitude, is attained by one of them unless it is the floor 1, and is
always at least 1 (the oi magnitude being `max(callOi, putOi)`, which for
the nonnegative open-interest inputs of the documented data contract is the
maximum of absolute values). -/
lemma snapshot_domain_props (state : StoreState) (symbol : Option String)
    (snap : MatrixSnapshot) (h : selectMatrixData state symbol = some snap) :
    (1 ≤ snap.maxGex ∧ (∀ c ∈ snap.cells, |c.gex.value| ≤ snap.maxGex) ∧
      (snap.maxGex = 1 ∨ ∃ c ∈ snap.cells, |c.gex.value| = snap.maxGex)) ∧
    (1 ≤ snap.maxDex ∧ (∀ c ∈ snap.cells, |c.dex.value| ≤ snap.maxDex) ∧
      (snap.maxDex = 1 ∨ ∃ c ∈ snap.cells, |c.dex.value| = snap.maxDex)) ∧
    (1 ≤ snap.maxNetOi ∧ (∀ c ∈ snap.cells, |c.netOi.value| ≤ snap.maxNetOi) ∧
      (snap.maxNetOi = 1 ∨ ∃ c ∈ snap.cells, |c.netOi.value| = snap.maxNetOi)) ∧
    (1 ≤ snap.maxOi ∧
      (∀ c ∈ snap.cells, max c.callOi.value c.putOi.value ≤ snap.maxOi) ∧
      (snap.maxOi = 1 ∨ ∃ c ∈ snap.cells, max c.callOi.value c.putOi.value = snap.maxOi)) ∧
    (∀ c ∈ snap.cells, c.gex.intensity = STRATEGIES.log |c.gex.value| 0 snap.maxGex ∧
      c.dex.intensity = STRATEGIES.log |c.dex.value| 0 snap.maxDex) := by
  obtain ⟨data, hg, hc, hsnap⟩ := selectMatrixData_eq_some h
  subst hsnap
  rw [buildSnapshot_cells, buildSnapshot_maxGex, buildSnapshot_maxDex,
    buildSnapshot_maxNetOi, buildSnapshot_maxOi]
  set fc := filterByMode (jsOrStr state.gexMode "single")
    (targetExpiryOf state data.chain) data.chain with hfc
  refine ⟨?_, ?_, ?_, ?_, ?_⟩
  · obtain ⟨h1, h2, h3⟩ := maxFold_props (strikesOf fc) (fun s => |sumGexAt fc s|)
    refine ⟨h1, ?_, ?_⟩
    · intro c hcm
      obtain ⟨s, hs, hce⟩ := List.mem_map.mp hcm
      rw [← hce, buildCell_gex_value]
      exact h2 s hs
    · rcases h3 with h3 | ⟨s, hs, he⟩
      · exact Or.inl h3
      · exact Or.inr ⟨_, List.mem_map_of_mem _ hs, by rw [buildCell_gex_value]; exact he⟩
  · obtain ⟨h1, h2, h3⟩ := maxFold_props (strikesOf fc) (fun s => |sumDexAt fc s|)
    refine ⟨h1, ?_, ?_⟩
    · intro c hcm
      obtain ⟨s, hs, hce⟩ := List.mem_map.mp hcm
      rw [← hce, buildCell_dex_value]
      exact h2 s hs
    · rcases h3 with h3 | ⟨s, hs, he⟩
      · exact Or.inl h3
      · exact Or.inr ⟨_, List.mem_map_of_mem _ hs, by rw [buildCell_dex_value]; exact he⟩
  · obtain ⟨h1, h2, h3⟩ := maxFold_props (strikesOf fc) (fun s => |sumNetOiAt fc s|)
    refine ⟨h1, ?_, ?_⟩
    · intro c hcm
      obtain ⟨s, hs, hce⟩ := List.mem_map.mp hcm
      rw [← hce, buildCell_netOi_value]
      exact h2 s hs
    · rcases h3 with h3 | ⟨s, hs, he⟩
      · exact Or.inl h3
      · exact Or.inr ⟨_, List.mem_map_of_mem _ hs, by rw [buildCell_netOi_value]; exact he⟩
  · obtain ⟨h1, h2, h3⟩ := maxFold_props (strikesOf fc) (fun s => maxOiAt fc s)
    refine ⟨h1, ?_, ?_⟩
    · intro c hcm
      obtain ⟨s, hs, hce⟩ := List.mem_map.mp hcm
      rw [← hce, buildCell_callOi_value, buildCell_putOi_value]
      exact h2 s hs
    · rcases h3 with h3 | ⟨s, hs, he⟩
      · exact Or.inl h3
      · refine Or.inr ⟨_, List.mem_map_of_mem _ hs, ?_⟩
        rw [buildCell_callOi_value, buildCell_putOi_value]
        exact he
  · intro c hcm
    obtain ⟨s, hs, hce⟩ := List.mem_map.mp hcm
    subst hce
    exact ⟨rfl, rfl⟩

/-- Claim C6: every snapshot's per-metric domain obeys the floor invariant:
the domain minimum is the literal 0 the builder passes to the strategy
(recorded in each cell's intensity), and the domain maximum equals the
maximum of the visible magnitudes floored at 1 — it bounds every visible
magnitude, is attained by one of them unless it is the floor 1, and is
always at least 1.  The oi magnitude is `max(callOi, putOi)`, which equals
the maximum of absolute values for the nonnegative open-interest inputs of
the documented data contract. -/
theorem claim6_domain_floor (state : StoreState) (symbol : Option String)
    (snap : MatrixSnapshot) (h : selectMatrixData state symbol = some snap) :
    (1 ≤ snap.maxGex ∧ (∀ c ∈ snap.cells, |c.gex.value| ≤ snap.maxGex) ∧
      (snap.maxGex = 1 ∨ ∃ c ∈ snap.cells, |c.gex.value| = snap.maxGex)) ∧
    (1 ≤ snap.maxDex ∧ (∀ c ∈ snap.cells, |c.dex.value| ≤ snap.maxDex) ∧
      (snap.maxDex = 1 ∨ ∃ c ∈ snap.cells, |c.dex.value| = snap.maxDex)) ∧
    (1 ≤ snap.maxNetOi ∧ (∀ c ∈ snap.cells, |c.netOi.value| ≤ snap.maxNetOi) ∧
      (snap.maxNetOi = 1 ∨ ∃ c ∈ snap.cells, |c.netOi.value| = snap.maxNetOi)) ∧
    (1 ≤ snap.maxOi ∧
      (∀ c ∈ snap.cells, max c.callOi.value c.putOi.value ≤ snap.maxOi) ∧
      (snap.maxOi = 1 ∨ ∃ c ∈ snap.cells, max c.callOi.value c.putOi.value = snap.maxOi)) ∧
    (∀ c ∈ snap.cells, c.gex.intensity = STRATEGIES.log |c.gex.value| 0 snap.maxGex ∧
      c.dex.intensity = STRATEGIES.log |c.dex.value| 0 snap.maxDex) :=
  snapshot_domain_props state symbol snap h

/-- Claim C6, witness: the domain-floor theorem applied to the concrete
key-level example chain. -/
theorem claim6_domain_floor_witness :
    1 ≤ (buildSnapshot (tickerOf (stateWithChain chainKeyLevels "single" none) none)
        (jsOrQ (100:ℚ) 0) (jsOrStr "single" "single")
        (targetExpiryOf (stateWithChain chainKeyLevels "single" none) chainKeyLevels)
        chainKeyLevels).maxGex ∧
    1 ≤ (buildSnapshot (tickerOf (stateWithChain chainKeyLevels "single" none) none)
        (jsOrQ (100:ℚ) 0) (jsOrStr "single" "single")
        (targetExpiryOf (stateWithChain chainKeyLevels "single" none) chainKeyLevels)
        chainKeyLevels).maxOi := by
  have hg : jsGet (stateWithChain chainKeyLevels "single" none).data
      (baseSymbolOf (stateWithChain chainKeyLevels "single" none) none) =
      some { underlying_price := 100, chain := chainKeyLevels } := by decide
  have h := selectMatrixData_some_of_chain hg (by decide)
  have hmain := claim6_domain_floor (stateWithChain chainKeyLevels "single" none) none _ h
  exact ⟨hmain.1.1, hmain.2.2.2.1.1⟩

/-- Claim C5: per-cell derived-field invariants.  For every cell the builder
produces: each sign field equals `Math.sign` of its raw value (zero maps to
sign 0); the gex/dex intensities are the selected (log) strategy applied to
the absolute raw value over that metric's domain `[0, max]`; the levels are
`Math.ceil(intensity * 10)` and lie in `[0, 10]`; the gex/dex/netOi widths
are `(|value| / max) * 100` and lie in `[0, 100]`.  The callOi/putOi widths
divide the raw value by the oi domain maximum, which coincides with the
absolute-value form (and lies in `[0, 100]`) whenever the summed open
interest is nonnegative, as the open-interest data contract guarantees. -/
theorem claim5_cell_invariants (state : StoreState) (symbol : Option String)
    (snap : MatrixSnapshot) (h : selectMatrixData state symbol = some snap) :
    ∀ c ∈ snap.cells,
      (c.gex.sign = jsSign c.gex.value ∧ c.dex.sign = jsSign c.dex.value ∧
        c.netOi.sign = jsSign c.netOi.value) ∧
      (c.gex.intensity = STRATEGIES.log |c.gex.value| 0 snap.maxGex ∧
        c.dex.intensity = STRATEGIES.log |c.dex.value| 0 snap.maxDex) ∧
      (c.gex.level = ⌈c.gex.intensity * 10⌉ ∧ 0 ≤ c.gex.level ∧ c.gex.level ≤ 10 ∧
        c.dex.level = ⌈c.dex.intensity * 10⌉ ∧ 0 ≤ c.dex.level ∧ c.dex.level ≤ 10) ∧
      (c.gex.width = |c.gex.value| / snap.maxGex * 100 ∧
        0 ≤ c.gex.width ∧ c.gex.width ≤ 100 ∧
        c.dex.width = |c.dex.value| / snap.maxDex * 100 ∧
        0 ≤ c.dex.width ∧ c.dex.width ≤ 100 ∧
        c.netOi.width = |c.netOi.value| / snap.maxNetOi * 100 ∧
        0 ≤ c.netOi.width ∧ c.netOi.width ≤ 100) ∧
      (c.callOi.width = c.callOi.value / snap.maxOi * 100 ∧
        c.putOi.width = c.putOi.value / snap.maxOi * 100 ∧
        (0 ≤ c.callOi.value → c.callOi.width = |c.callOi.value| / snap.maxOi * 100 ∧
          0 ≤ c.callOi.width ∧ c.callOi.width ≤ 100) ∧
        (0 ≤ c.putOi.value → c.putOi.width = |c.putOi.value| / snap.maxOi * 100 ∧
          0 ≤ c.putOi.width ∧ c.putOi.width ≤ 100)) := by
  have hdom := snapshot_domain_props state symbol snap h
  obtain ⟨data, hg, hch, hsnap⟩ := selectMatrixData_eq_some h
  subst hsnap
  obtain ⟨hG, hD, hN, hO, hI⟩ := hdom
  intro c hcm
  have hcm2 := hcm
  rw [buildSnapshot_cells] at hcm2
  obtain ⟨s, hs, hce⟩ := List.mem_map.mp hcm2
  refine ⟨?_, ⟨(hI c hcm).1, (hI c hcm).2⟩, ?_, ?_, ?_⟩
  · rw [← hce]
    exact ⟨rfl, rfl, rfl⟩
  · subst hce
    have hgb := log_strategy_bounds
      |sumGexAt (filterByMode (jsOrStr state.gexMode "single")
        (targetExpiryOf state data.chain) data.chain) s| 0
      (maxValGex (filterByMode (jsOrStr state.gexMode "single")
        (targetExpiryOf state data.chain) data.chain))
    have hdb := log_strategy_bounds
      |sumDexAt (filterByMode (jsOrStr state.gexMode "single")
        (targetExpiryOf state data.chain) data.chain) s| 0
      (maxValDex (filterByMode (jsOrStr state.gexMode "single")
        (targetExpiryOf state data.chain) data.chain))
    obtain ⟨hgl0, hgl1⟩ := ceil_level_bounds hgb.1 hgb.2
    obtain ⟨hdl0, hdl1⟩ := ceil_level_bounds hdb.1 hdb.2
    exact ⟨rfl, hgl0, hgl1, rfl, hdl0, hdl1⟩
  · obtain ⟨hg1, hg2, -⟩ := hG
    obtain ⟨hd1, hd2, -⟩ := hD
    obtain ⟨hn1, hn2, -⟩ := hN
    obtain ⟨hw1, hw2⟩ := width_bounds hg1 (abs_nonneg c.gex.value) (hg2 c hcm)
    obtain ⟨hw3, hw4⟩ := width_bounds hd1 (abs_nonneg c.dex.value) (hd2 c hcm)
    obtain ⟨hw5, hw6⟩ := width_bounds hn1 (abs_nonneg c.netOi.value) (hn2 c hcm)
    subst hce
    exact ⟨rfl, hw1, hw2, rfl, hw3, hw4, rfl, hw5, hw6⟩
  · obtain ⟨ho1, ho2, -⟩ := hO
    have hcall : c.callOi.value ≤ (buildSnapshot (tickerOf state symbol)
        (jsOrQ data.underlying_price data.price) (jsOrStr state.gexMode "single")
        (targetExpiryOf state data.chain) data.chain).maxOi :=
      le_trans (le_max_left _ _) (ho2 c hcm)
    have hput : c.putOi.value ≤ (buildSnapshot (tickerOf state symbol)
        (jsOrQ data.underlying_price data.price) (jsOrStr state.gexMode "single")
        (targetExpiryOf state data.chain) data.chain).maxOi :=
      le_trans (le_max_right _ _) (ho2 c hcm)
    refine ⟨?_, ?_, ?_, ?_⟩
    · rw [← hce]; rfl
    · rw [← hce]; rfl
    · intro hpos
      obtain ⟨hw1, hw2⟩ := width_bounds ho1 hpos hcall
      refine ⟨?_, ?_, ?_⟩
      · rw [abs_of_nonneg hpos, ← hce]
        rfl
      · rw [← hce] at hw1 ⊢
        exact hw1
      · rw [← hce] at hw2 ⊢
        exact hw2
    · intro hpos
      obtain ⟨hw1, hw2⟩ := width_bounds ho1 hpos hput
      refine ⟨?_, ?_, ?_⟩
      · rw [abs_of_nonneg hpos, ← hce]
        rfl
      · rw [← hce] at hw1 ⊢
        exact hw1
      · rw [← hce] at hw2 ⊢
        exact hw2

lemma select_keyLevels_eq :
    selectMatrixData (stateWithChain chainKeyLevels "single" none) none =
      some snapKeyLevels := by
  have hg : jsGet (stateWithChain chainKeyLevels "single" none).data
      (baseSymbolOf (stateWithChain chainKeyLevels "single" none) none) =
      some { underlying_price := 100, chain := chainKeyLevels } := by decide
  exact selectMatrixData_some_of_chain hg (by decide)

lemma cellKL110_mem : cellKL110 ∈ snapKeyLevels.cells := by
  have hstr : strikesOf (filterByMode (jsOrStr "single" "single")
      (targetExpiryOf (stateWithChain chainKeyLevels "single" none) chainKeyLevels)
      chainKeyLevels) = [110, 105, 100] := by decide
  show cellKL110 ∈ (buildSnapshot _ _ _ _ _).cells
  rw [buildSnapshot_cells, hstr]
  simp only [List.map_cons, List.map_nil]
  exact List.mem_cons_self _ _

/-- Claim C5, witness: the per-cell invariant theorem applied to the cell at
strike 110 of the concrete key-level example snapshot. -/
theorem claim5_cell_invariants_witness :
    cellKL110.gex.sign = jsSign cellKL110.gex.value ∧
    (0 ≤ cellKL110.gex.level ∧ cellKL110.gex.level ≤ 10) ∧
    (0 ≤ cellKL110.gex.width ∧ cellKL110.gex.width ≤ 100) := by
  have hmain := claim5_cell_invariants (stateWithChain chainKeyLevels "single" none) none
    snapKeyLevels select_keyLevels_eq cellKL110 cellKL110_mem
  exact ⟨hmain.1.1, ⟨hmain.2.2.1.2.1, hmain.2.2.1.2.2.1⟩,
    ⟨hmain.2.2.2.1.2.1, hmain.2.2.2.1.2.2.1⟩⟩

/-- Claim C4: key-level derivation.  For every snapshot with at least one
cell, `resistance` is the strike of the first cell (in iteration order) whose
net GEX value is maximal among all cells, and `support` is the strike of the
first cell whose net GEX value is minimal; `List.find?` captures the
first-encountered tie-break, and the iteration order is the cell insertion
order — one cell per strike, strikes sorted descending. -/
theorem claim4_key_levels (state : StoreState) (symbol : Option String)
    (snap : MatrixSnapshot) (h : selectMatrixData state symbol = some snap)
    (hne : snap.cells ≠ []) :
    (∃ cres, snap.cells.find?
        (fun x => decide (∀ y ∈ snap.cells, y.gex.value ≤ x.gex.value)) = some cres ∧
      snap.resistance = cres.strike) ∧
    (∃ csup, snap.cells.find?
        (fun x => decide (∀ y ∈ snap.cells, x.gex.value ≤ y.gex.value)) = some csup ∧
      snap.support = csup.strike) ∧
    snap.cells.map (fun c => c.strike) = snap.strikes ∧
    List.Sorted (fun a b : ℚ => b ≤ a) snap.strikes := by
  obtain ⟨data, hg, hch, hsnap⟩ := selectMatrixData_eq_some h
  subst hsnap
  refine ⟨?_, ?_, ?_, ?_⟩
  · obtain ⟨c, hf, hr⟩ := scanCells_resistance _ hne
    exact ⟨c, hf, by rw [buildSnapshot_resistance]; exact hr⟩
  · obtain ⟨c, hf, hr⟩ := scanCells_support _ hne
    exact ⟨c, hf, by rw [buildSnapshot_support]; exact hr⟩
  · rw [buildSnapshot_cells, buildSnapshot_strikes, List.map_map]
    have hcomp : ((fun c : MatrixCell => c.strike) ∘
        (buildCell (filterByMode (jsOrStr state.gexMode "single")
            (targetExpiryOf state data.chain) data.chain)
          ((sortedExpiriesOf (filterByMode (jsOrStr state.gexMode "single")
            (targetExpiryOf state data.chain) data.chain)).headD "")
          (maxValGex (filterByMode (jsOrStr state.gexMode "single")
            (targetExpiryOf state data.chain) data.chain))
          (maxValDex (filterByMode (jsOrStr state.gexMode "single")
            (targetExpiryOf state data.chain) data.chain))
          (maxValNetOi (filterByMode (jsOrStr state.gexMode "single")
            (targetExpiryOf state data.chain) data.chain))
          (maxValOi (filterByMode (jsOrStr state.gexMode "single")
            (targetExpiryOf state data.chain) data.chain)))) = id := rfl
    rw [hcomp, List.map_id]
  · rw [buildSnapshot_strikes]
    exact List.sorted_insertionSort _ _

/-- Claim C4, witness: the key-level theorem applied to the concrete
specification example (strikes 100, 105, 110 with net GEX 50, -30, 80), checking
that the derived resistance is 110 and the derived support is 105. -/
theorem claim4_key_levels_witness :
    snapKeyLevels.resistance = 110 ∧ snapKeyLevels.support = 105 := by
  have hne : snapKeyLevels.cells ≠ [] := List.ne_nil_of_mem cellKL110_mem
  have hmain := claim4_key_levels (stateWithChain chainKeyLevels "single" none) none
    snapKeyLevels select_keyLevels_eq hne
  have hfc : filterByMode (jsOrStr "single" "single")
      (targetExpiryOf (stateWithChain chainKeyLevels "single" none) chainKeyLevels)
      chainKeyLevels = chainKeyLevels := by decide
  have hstr : strikesOf chainKeyLevels = [110, 105, 100] := by decide
  have h110 : sumGexAt chainKeyLevels 110 = 80 := by
    have hsi : strikeItems chainKeyLevels 110 = [exRow 110 "2024-01-05" 80] := by decide
    show sumBy _ chainKeyLevels 110 = 80
    unfold sumBy
    rw [hsi]
    norm_num [List.foldl, jsOrQ, exRow]
  have h105 : sumGexAt chainKeyLevels 105 = -30 := by
    have hsi : strikeItems chainKeyLevels 105 = [exRow 105 "2024-01-05" (-30)] := by decide
    show sumBy _ chainKeyLevels 105 = -30
    unfold sumBy
    rw [hsi]
    norm_num [List.foldl, jsOrQ, exRow]
  have h100 : sumGexAt chainKeyLevels 100 = 50 := by
    have hsi : strikeItems chainKeyLevels 100 = [exRow 100 "2024-01-05" 50] := by decide
    show sumBy _ chainKeyLevels 100 = 50
    unfold sumBy
    rw [hsi]
    norm_num [List.foldl, jsOrQ, exRow]
  have hcells : snapKeyLevels.cells =
      [buildCell chainKeyLevels ((sortedExpiriesOf chainKeyLevels).headD "")
        (maxValGex chainKeyLevels) (maxValDex chainKeyLevels)
        (maxValNetOi chainKeyLevels) (maxValOi chainKeyLevels) 110,
       buildCell chainKeyLevels ((sortedExpiriesOf chainKeyLevels).headD "")
        (maxValGex chainKeyLevels) (maxValDex chainKeyLevels)
        (maxValNetOi chainKeyLevels) (maxValOi chainKeyLevels) 105,
       buildCell chainKeyLevels ((sortedExpiriesOf chainKeyLevels).headD "")
        (maxValGex chainKeyLevels) (maxValDex chainKeyLevels)
        (maxValNetOi chainKeyLevels) (maxValOi chainKeyLevels) 100] := by
    show (buildSnapshot _ _ _ _ _).cells = _
    rw [buildSnapshot_cells, hfc, hstr]
    simp only [List.map_cons, List.map_nil]
  constructor
  · obtain ⟨cres, hf, hr⟩ := hmain.1
    have hfind : snapKeyLevels.cells.find?
        (fun x => decide (∀ y ∈ snapKeyLevels.cells, y.gex.value ≤ x.gex.value)) =
        some (buildCell chainKeyLevels ((sortedExpiriesOf chainKeyLevels).headD "")
          (maxValGex chainKeyLevels) (maxValDex chainKeyLevels)
          (maxValNetOi chainKeyLevels) (maxValOi chainKeyLevels) 110) := by
      rw [hcells]
      apply List.find?_cons_of_pos
      apply decide_eq_true
      intro y hy
      simp only [List.mem_cons, List.not_mem_nil, or_false] at hy
      rcases hy with rfl | rfl | rfl <;>
        simp only [buildCell_gex_value, h110, h105, h100] <;> norm_num
    rw [hf] at hfind
    rw [hr, Option.some_inj.mp hfind]
    rfl
  · obtain ⟨csup, hf, hr⟩ := hmain.2.1
    have hfind : snapKeyLevels.cells.find?
        (fun x => decide (∀ y ∈ snapKeyLevels.cells, x.gex.value ≤ y.gex.value)) =
        some (buildCell chainKeyLevels ((sortedExpiriesOf chainKeyLevels).headD "")
          (maxValGex chainKeyLevels) (maxValDex chainKeyLevels)
          (maxValNetOi chainKeyLevels) (maxValOi chainKeyLevels) 105) := by
      rw [hcells]
      rw [List.find?_cons_of_neg]
      · apply List.find?_cons_of_pos
        apply decide_eq_true
        intro y hy
        simp only [List.mem_cons, List.not_mem_nil, or_false] at hy
        rcases hy with rfl | rfl | rfl <;>
          simp only [buildCell_gex_value, h110, h105, h100] <;> norm_num
      · simp only [decide_eq_true_eq]
        intro hall
        have h1 := hall
          (buildCell chainKeyLevels ((sortedExpiriesOf chainKeyLevels).headD "")
            (maxValGex chainKeyLevels) (maxValDex chainKeyLevels)
            (maxValNetOi chainKeyLevels) (maxValOi chainKeyLevels) 105)
          (List.mem_cons_of_mem _ (List.mem_cons_self _ _))
        rw [buildCell_gex_value, buildCell_gex_value, h110, h105] at h1
        norm_num at h1
    rw [hf] at hfind
    rw [hr, Option.some_inj.mp hfind]
    rfl

lemma stateWithChain_gexMode (c : List ChainRow) (m : String) (sel : Option String) :
    (stateWithChain c m sel).gexMode = m := rfl

lemma targetExpiryOf_some {chain : List ChainRow} {e : String} (he : e ≠ "")
    (mode : String) : targetExpiryOf (stateWithChain chain mode (some e)) chain = e := by
  show (if e = "" then defaultExpiry chain else e) = e
  rw [if_neg he]

lemma jsOrStr_nonempty {a : String} (h : a ≠ "") (b : String) : jsOrStr a b = a := if_neg h

lemma snapCell_eq_some {tk : String} {sp : ℚ} {m e : String} {ch : List ChainRow}
    {s : ℚ} {c : MatrixCell}
    (h : snapCell (some (buildSnapshot tk sp m e ch)) s = some c) :
    s ∈ strikesOf (filterByMode m e ch) ∧
    c = buildCell (filterByMode m e ch) ((sortedExpiriesOf (filterByMode m e ch)).headD "")
      (maxValGex (filterByMode m e ch)) (maxValDex (filterByMode m e ch))
      (maxValNetOi (filterByMode m e ch)) (maxValOi (filterByMode m e ch)) s := by
  by_cases hs : s ∈ strikesOf (filterByMode m e ch)
  · rw [snapCell_some_of_mem hs] at h
    exact ⟨hs, (Option.some_inj.mp h).symm⟩
  · rw [snapCell_none_of_not_mem hs] at h
    exact absurd h (by simp)

/-- Claim C1 (amended): cumulative-mode additivity holds for chains whose
rows all lie at one of the two expiries `e1 < e2` (with at most one row per
(strike, expiry), as the claim assumes): the raw cell value the builder
produces in cumulative mode at target `e2` for each of the five metrics is
the sum of the two single-mode raw values at `e1` and at `e2` for that
strike.  When further expiries at or before the target are present in the
data, their rows are also summed into the cumulative cell, which refutes the
unrestricted claim (see the counterexample). -/
theorem claim1_cumulative_additivity (chain : List ChainRow) (e1 e2 : String) (s : ℚ)
    (hlt : strLtb e1 e2 = true) (he1 : e1 ≠ "")
    (hone : ∀ r1 ∈ chain, ∀ r2 ∈ chain,
      r1.strike = r2.strike → r1.expiry = r2.expiry → r1 = r2)
    (hexp : ∀ r ∈ chain, r.expiry = e1 ∨ r.expiry = e2)
    (c1 c2 : MatrixCell)
    (h1 : snapCell (selectMatrixData (stateWithChain chain "single" (some e1)) none) s = some c1)
    (h2 : snapCell (selectMatrixData (stateWithChain chain "single" (some e2)) none) s = some c2) :
    ∃ c, snapCell (selectMatrixData (stateWithChain chain "cumulative" (some e2)) none) s =
        some c ∧
      c.gex.value = c1.gex.value + c2.gex.value ∧
      c.dex.value = c1.dex.value + c2.dex.value ∧
      c.netOi.value = c1.netOi.value + c2.netOi.value ∧
      c.callOi.value = c1.callOi.value + c2.callOi.value ∧
      c.putOi.value = c1.putOi.value + c2.putOi.value := by
  have he2 : e2 ≠ "" := strLtb_right_ne_empty hlt
  by_cases hch : chain = []
  · subst hch
    have hnone : selectMatrixData (stateWithChain [] "single" (some e1)) none = none := rfl
    rw [hnone] at h1
    simp [snapCell] at h1
  · have hg1 : jsGet (stateWithChain chain "single" (some e1)).data
        (baseSymbolOf (stateWithChain chain "single" (some e1)) none) =
        some { underlying_price := 100, chain := chain } := rfl
    have hg2 : jsGet (stateWithChain chain "single" (some e2)).data
        (baseSymbolOf (stateWithChain chain "single" (some e2)) none) =
        some { underlying_price := 100, chain := chain } := rfl
    have hgc : jsGet (stateWithChain chain "cumulative" (some e2)).data
        (baseSymbolOf (stateWithChain chain "cumulative" (some e2)) none) =
        some { underlying_price := 100, chain := chain } := rfl
    have hsel1 := selectMatrixData_some_of_chain hg1 hch
    have hsel2 := selectMatrixData_some_of_chain hg2 hch
    have hselc := selectMatrixData_some_of_chain hgc hch
    have hmS : jsOrStr "single" "single" = "single" := rfl
    have hmC : jsOrStr "cumulative" "single" = "cumulative" := rfl
    rw [stateWithChain_gexMode, targetExpiryOf_some he1, hmS] at hsel1
    rw [stateWithChain_gexMode, targetExpiryOf_some he2, hmS] at hsel2
    rw [stateWithChain_gexMode, targetExpiryOf_some he2, hmC] at hselc
    rw [hsel1] at h1
    rw [hsel2] at h2
    obtain ⟨hs1, hc1⟩ := snapCell_eq_some h1
    obtain ⟨hs2, hc2⟩ := snapCell_eq_some h2
    have hsc : s ∈ strikesOf (filterByMode "cumulative" e2 chain) := by
      obtain ⟨r, hr, hrs⟩ := mem_strikesOf.mp hs1
      rw [filterByMode_single] at hr
      obtain ⟨hrc, hre⟩ := List.mem_filter.mp hr
      apply mem_strikesOf.mpr
      refine ⟨r, ?_, hrs⟩
      rw [filterByMode_cumulative]
      apply List.mem_filter.mpr
      refine ⟨hrc, ?_⟩
      rw [of_decide_eq_true hre]
      exact strLeb_of_strLtb hlt
    refine ⟨_, by rw [hselc]; exact snapCell_some_of_mem hsc, ?_, ?_, ?_, ?_, ?_⟩
    · rw [hc1, hc2, buildCell_gex_value, buildCell_gex_value, buildCell_gex_value]
      exact sumBy_cumulative_split _ hlt s chain hexp
    · rw [hc1, hc2, buildCell_dex_value, buildCell_dex_value, buildCell_dex_value]
      exact sumBy_cumulative_split _ hlt s chain hexp
    · rw [hc1, hc2, buildCell_netOi_value, buildCell_netOi_value, buildCell_netOi_value]
      exact sumBy_cumulative_split _ hlt s chain hexp
    · rw [hc1, hc2, buildCell_callOi_value, buildCell_callOi_value, buildCell_callOi_value]
      exact sumBy_cumulative_split _ hlt s chain hexp
    · rw [hc1, hc2, buildCell_putOi_value, buildCell_putOi_value, buildCell_putOi_value]
      exact sumBy_cumulative_split _ hlt s chain hexp

lemma snapCell_builtCellAt {tk : String} {sp : ℚ} {m e : String} {ch : List ChainRow}
    {s : ℚ} (hs : s ∈ strikesOf (filterByMode m e ch)) :
    snapCell (some (buildSnapshot tk sp m e ch)) s = some (builtCellAt m e ch s) :=
  snapCell_some_of_mem hs

lemma sumGexAt_chainThreeExp_cum : sumGexAt chainThreeExp 100 = 7 := by
  have hsi : strikeItems chainThreeExp 100 = chainThreeExp := by decide
  show sumBy _ chainThreeExp 100 = 7
  unfold sumBy
  rw [hsi]
  norm_num [chainThreeExp, exRow, List.foldl, jsOrQ]

/-- Claim C1, counterexample: with a third expiry at or before the target in
the data, the cumulative cell is not the sum of the two single-mode cells.
The chain holds one strike (100) with rows at three expiries (net GEX 1, 2,
4; at most one row per (strike, expiry)); for the pair e1 = 2024-02-05 <
e2 = 2024-03-05, both present, the cumulative raw gex value at e2 is
1 + 2 + 4 = 7 while the single-mode values at e1 and e2 are 2 and 4, and
7 is not 2 + 4. -/
theorem claim1_counterexample :
    (snapCell (selectMatrixData
        (stateWithChain chainThreeExp "cumulative" (some "2024-03-05")) none) 100).map
      (fun c => c.gex.value) = some 7 ∧
    (snapCell (selectMatrixData
        (stateWithChain chainThreeExp "single" (some "2024-02-05")) none) 100).map
      (fun c => c.gex.value) = some 2 ∧
    (snapCell (selectMatrixData
        (stateWithChain chainThreeExp "single" (some "2024-03-05")) none) 100).map
      (fun c => c.gex.value) = some 4 ∧
    (7 : ℚ) ≠ 2 + 4 := by
  refine ⟨?_, ?_, ?_, by norm_num⟩
  · have hg : jsGet (stateWithChain chainThreeExp "cumulative" (some "2024-03-05")).data
        (baseSymbolOf (stateWithChain chainThreeExp "cumulative" (some "2024-03-05")) none) =
        some { underlying_price := 100, chain := chainThreeExp } := rfl
    have hsel := selectMatrixData_some_of_chain hg (by decide)
    rw [hsel]
    have hs : (100:ℚ) ∈ strikesOf (filterByMode "cumulative" "2024-03-05" chainThreeExp) := by
      decide
    have hcell : snapCell (some (buildSnapshot
        (tickerOf (stateWithChain chainThreeExp "cumulative" (some "2024-03-05")) none)
        (jsOrQ ({ underlying_price := 100, chain := chainThreeExp } : AssetData).underlying_price
          ({ underlying_price := 100, chain := chainThreeExp } : AssetData).price)
        (jsOrStr (stateWithChain chainThreeExp "cumulative" (some "2024-03-05")).gexMode "single")
        (targetExpiryOf (stateWithChain chainThreeExp "cumulative" (some "2024-03-05"))
          ({ underlying_price := 100, chain := chainThreeExp } : AssetData).chain)
        ({ underlying_price := 100, chain := chainThreeExp } : AssetData).chain)) 100 =
        some (builtCellAt "cumulative" "2024-03-05" chainThreeExp 100) :=
      snapCell_builtCellAt hs
    rw [hcell]
    have hv : (builtCellAt "cumulative" "2024-03-05" chainThreeExp 100).gex.value = 7 := by
      have hfc : filterByMode "cumulative" "2024-03-05" chainThreeExp = chainThreeExp := by
        decide
      show sumGexAt (filterByMode "cumulative" "2024-03-05" chainThreeExp) 100 = 7
      rw [hfc]
      exact sumGexAt_chainThreeExp_cum
    rw [Option.map_some', hv]
  · have hg : jsGet (stateWithChain chainThreeExp "single" (some "2024-02-05")).data
        (baseSymbolOf (stateWithChain chainThreeExp "single" (some "2024-02-05")) none) =
        some { underlying_price := 100, chain := chainThreeExp } := rfl
    have hsel := selectMatrixData_some_of_chain hg (by decide)
    rw [hsel]
    have hs : (100:ℚ) ∈ strikesOf (filterByMode "single" "2024-02-05" chainThreeExp) := by
      decide
    have hcell : snapCell (some (buildSnapshot
        (tickerOf (stateWithChain chainThreeExp "single" (some "2024-02-05")) none)
        (jsOrQ ({ underlying_price := 100, chain := chainThreeExp } : AssetData).underlying_price
          ({ underlying_price := 100, chain := chainThreeExp } : AssetData).price)
        (jsOrStr (stateWithChain chainThreeExp "single" (some "2024-02-05")).gexMode "single")
        (targetExpiryOf (stateWithChain chainThreeExp "single" (some "2024-02-05"))
          ({ underlying_price := 100, chain := chainThreeExp } : AssetData).chain)
        ({ underlying_price := 100, chain := chainThreeExp } : AssetData).chain)) 100 =
        some (builtCellAt "single" "2024-02-05" chainThreeExp 100) :=
      snapCell_builtCellAt hs
    rw [hcell]
    have hv : (builtCellAt "single" "2024-02-05" chainThreeExp 100).gex.value = 2 := by
      have hsi : strikeItems (filterByMode "single" "2024-02-05" chainThreeExp) 100 =
          [exRow 100 "2024-02-05" 2] := by decide
      show sumGexAt (filterByMode "single" "2024-02-05" chainThreeExp) 100 = 2
      unfold sumGexAt sumBy
      rw [hsi]
      norm_num [exRow, List.foldl, jsOrQ]
    rw [Option.map_some', hv]
  · have hg : jsGet (stateWithChain chainThreeExp "single" (some "2024-03-05")).data
        (baseSymbolOf (stateWithChain chainThreeExp "single" (some "2024-03-05")) none) =
        some { underlying_price := 100, chain := chainThreeExp } := rfl
    have hsel := selectMatrixData_some_of_chain hg (by decide)
    rw [hsel]
    have hs : (100:ℚ) ∈ strikesOf (filterByMode "single" "2024-03-05" chainThreeExp) := by
      decide
    have hcell : snapCell (some (buildSnapshot
        (tickerOf (stateWithChain chainThreeExp "single" (some "2024-03-05")) none)
        (jsOrQ ({ underlying_price := 100, chain := chainThreeExp } : AssetData).underlying_price
          ({ underlying_price := 100, chain := chainThreeExp } : AssetData).price)
        (jsOrStr (stateWithChain chainThreeExp "single" (some "2024-03-05")).gexMode "single")
        (targetExpiryOf (stateWithChain chainThreeExp "single" (some "2024-03-05"))
          ({ underlying_price := 100, chain := chainThreeExp } : AssetData).chain)
        ({ underlying_price := 100, chain := chainThreeExp } : AssetData).chain)) 100 =
        some (builtCellAt "single" "2024-03-05" chainThreeExp 100) :=
      snapCell_builtCellAt hs
    rw [hcell]
    have hv : (builtCellAt "single" "2024-03-05" chainThreeExp 100).gex.value = 4 := by
      have hsi : strikeItems (filterByMode "single" "2024-03-05" chainThreeExp) 100 =
          [exRow 100 "2024-03-05" 4] := by decide
      show sumGexAt (filterByMode "single" "2024-03-05" chainThreeExp) 100 = 4
      unfold sumGexAt sumBy
      rw [hsi]
      norm_num [exRow, List.foldl, jsOrQ]
    rw [Option.map_some', hv]

/-- Claim C1, witness: the amended additivity theorem applied to the
two-expiry chain (net GEX 3 at 2024-01-05 and 5 at 2024-02-05, strike
100). -/
theorem claim1_cumulative_additivity_witness :
    snapCell (selectMatrixData
        (stateWithChain chainTwoExp "cumulative" (some "2024-02-05")) none) 100 =
      some (builtCellAt "cumulative" "2024-02-05" chainTwoExp 100) ∧
    (builtCellAt "cumulative" "2024-02-05" chainTwoExp 100).gex.value =
      (builtCellAt "single" "2024-01-05" chainTwoExp 100).gex.value +
      (builtCellAt "single" "2024-02-05" chainTwoExp 100).gex.value := by
  have hg1 : jsGet (stateWithChain chainTwoExp "single" (some "2024-01-05")).data
      (baseSymbolOf (stateWithChain chainTwoExp "single" (some "2024-01-05")) none) =
      some { underlying_price := 100, chain := chainTwoExp } := rfl
  have hg2 : jsGet (stateWithChain chainTwoExp "single" (some "2024-02-05")).data
      (baseSymbolOf (stateWithChain chainTwoExp "single" (some "2024-02-05")) none) =
      some { underlying_price := 100, chain := chainTwoExp } := rfl
  have hgc : jsGet (stateWithChain chainTwoExp "cumulative" (some "2024-02-05")).data
      (baseSymbolOf (stateWithChain chainTwoExp "cumulative" (some "2024-02-05")) none) =
      some { underlying_price := 100, chain := chainTwoExp } := rfl
  have h1 : snapCell (selectMatrixData
      (stateWithChain chainTwoExp "single" (some "2024-01-05")) none) 100 =
      some (builtCellAt "single" "2024-01-05" chainTwoExp 100) := by
    rw [selectMatrixData_some_of_chain hg1 (by decide)]
    exact snapCell_builtCellAt (by decide)
  have h2 : snapCell (selectMatrixData
      (stateWithChain chainTwoExp "single" (some "2024-02-05")) none) 100 =
      some (builtCellAt "single" "2024-02-05" chainTwoExp 100) := by
    rw [selectMatrixData_some_of_chain hg2 (by decide)]
    exact snapCell_builtCellAt (by decide)
  have hcum : snapCell (selectMatrixData
      (stateWithChain chainTwoExp "cumulative" (some "2024-02-05")) none) 100 =
      some (builtCellAt "cumulative" "2024-02-05" chainTwoExp 100) := by
    rw [selectMatrixData_some_of_chain hgc (by decide)]
    exact snapCell_builtCellAt (by decide)
  obtain ⟨c, hc, hgex, -, -, -, -⟩ := claim1_cumulative_additivity chainTwoExp
    "2024-01-05" "2024-02-05" 100 (by decide) (by decide) (by decide) (by decide)
    (builtCellAt "single" "2024-01-05" chainTwoExp 100)
    (builtCellAt "single" "2024-02-05" chainTwoExp 100) h1 h2
  have hceq : c = builtCellAt "cumulative" "2024-02-05" chainTwoExp 100 :=
    Option.some_inj.mp (hc.symm.trans hcum)
  exact ⟨hcum, by rw [← hceq]; exact hgex⟩

/-- Claim C7 (amended): an unrecognized mode string does not fall back to
single mode — the builder's filter passes every row through (the trailing
`return true`), and the projection still produces a normal snapshot rather
than failing; an expiry absent from the data in single mode does not fall
back to the earliest expiry — it produces a snapshot with empty strikes,
expiries and cells.  The earliest-expiry default applies only when no expiry
is selected (`state.selectedExpiry` null or empty). -/
theorem claim7_mode_fallback :
    (∀ m t : String, m ≠ "single" → m ≠ "cumulative" →
      ∀ chain : List ChainRow, filterByMode m t chain = chain) ∧
    (∀ (state : StoreState) (symbol : Option String) (data : AssetData),
      jsGet state.data (baseSymbolOf state symbol) = some data → data.chain ≠ [] →
      (selectMatrixData state symbol).isSome = true) ∧
    (∀ (state : StoreState) (symbol : Option String) (data : AssetData) (e : String),
      jsGet state.data (baseSymbolOf state symbol) = some data → data.chain ≠ [] →
      jsOrStr state.gexMode "single" = "single" →
      state.selectedExpiry = some e → e ≠ "" →
      (∀ r ∈ data.chain, r.expiry ≠ e) →
      ∃ snap, selectMatrixData state symbol = some snap ∧
        snap.strikes = [] ∧ snap.expiries = [] ∧ snap.cells = []) := by
  refine ⟨?_, ?_, ?_⟩
  · intro m t hm1 hm2 chain
    exact filterByMode_other hm1 hm2 t chain
  · intro state symbol data hg hch
    rw [selectMatrixData_some_of_chain hg hch]
    rfl
  · intro state symbol data e hg hch hmode hse he hne
    have htgt : targetExpiryOf state data.chain = e := by
      unfold targetExpiryOf
      rw [hse]
      exact if_neg he
    have hfc : filterByMode (jsOrStr state.gexMode "single")
        (targetExpiryOf state data.chain) data.chain = [] := by
      rw [hmode, htgt, filterByMode_single]
      rw [List.filter_eq_nil_iff]
      intro r hr
      simp only [decide_eq_true_eq]
      exact hne r hr
    refine ⟨_, selectMatrixData_some_of_chain hg hch, ?_, ?_, ?_⟩
    · rw [buildSnapshot_strikes, hfc]
      rfl
    · rw [buildSnapshot_expiries, hfc]
      rfl
    · rw [buildSnapshot_cells, hfc]
      rfl

/-- Claim C7, counterexample: the unrecognized mode string "banana" does not
behave like single mode at the earliest expiry.  On the three-expiry chain,
single mode at the (defaulted) earliest expiry yields raw gex 1 at strike
100, while mode "banana" includes all rows and yields 7, so the two
projections differ. -/
theorem claim7_unknown_mode_counterexample :
    (snapCell (selectMatrixData (stateWithChain chainThreeExp "banana" none) none) 100).map
      (fun c => c.gex.value) = some 7 ∧
    (snapCell (selectMatrixData (stateWithChain chainThreeExp "single" none) none) 100).map
      (fun c => c.gex.value) = some 1 ∧
    selectMatrixData (stateWithChain chainThreeExp "banana" none) none ≠
      selectMatrixData (stateWithChain chainThreeExp "single" none) none := by
  have hb : (snapCell (selectMatrixData
      (stateWithChain chainThreeExp "banana" none) none) 100).map
      (fun c => c.gex.value) = some 7 := by
    have hg : jsGet (stateWithChain chainThreeExp "banana" none).data
        (baseSymbolOf (stateWithChain chainThreeExp "banana" none) none) =
        some { underlying_price := 100, chain := chainThreeExp } := rfl
    rw [selectMatrixData_some_of_chain hg (by decide)]
    rw [show ({ underlying_price := 100, chain := chainThreeExp } : AssetData).chain =
      chainThreeExp from rfl]
    rw [show jsOrStr (stateWithChain chainThreeExp "banana" none).gexMode "single" =
      "banana" from rfl]
    rw [show targetExpiryOf (stateWithChain chainThreeExp "banana" none) chainThreeExp =
      "2024-01-05" from by decide]
    rw [snapCell_builtCellAt (by decide : (100:ℚ) ∈ strikesOf (filterByMode "banana"
      "2024-01-05" chainThreeExp))]
    have hv : (builtCellAt "banana" "2024-01-05" chainThreeExp 100).gex.value = 7 := by
      have hfc : filterByMode "banana" "2024-01-05" chainThreeExp = chainThreeExp := by decide
      show sumGexAt (filterByMode "banana" "2024-01-05" chainThreeExp) 100 = 7
      rw [hfc]
      exact sumGexAt_chainThreeExp_cum
    rw [Option.map_some', hv]
  have hs : (snapCell (selectMatrixData
      (stateWithChain chainThreeExp "single" none) none) 100).map
      (fun c => c.gex.value) = some 1 := by
    have hg : jsGet (stateWithChain chainThreeExp "single" none).data
        (baseSymbolOf (stateWithChain chainThreeExp "single" none) none) =
        some { underlying_price := 100, chain := chainThreeExp } := rfl
    rw [selectMatrixData_some_of_chain hg (by decide)]
    rw [show ({ underlying_price := 100, chain := chainThreeExp } : AssetData).chain =
      chainThreeExp from rfl]
    rw [show jsOrStr (stateWithChain chainThreeExp "single" none).gexMode "single" =
      "single" from rfl]
    rw [show targetExpiryOf (stateWithChain chainThreeExp "single" none) chainThreeExp =
      "2024-01-05" from by decide]
    rw [snapCell_builtCellAt (by decide : (100:ℚ) ∈ strikesOf (filterByMode "single"
      "2024-01-05" chainThreeExp))]
    have hv : (builtCellAt "single" "2024-01-05" chainThreeExp 100).gex.value = 1 := by
      have hsi : strikeItems (filterByMode "single" "2024-01-05" chainThreeExp) 100 =
          [exRow 100 "2024-01-05" 1] := by decide
      show sumGexAt (filterByMode "single" "2024-01-05" chainThreeExp) 100 = 1
      unfold sumGexAt sumBy
      rw [hsi]
      norm_num [exRow, List.foldl, jsOrQ]
    rw [Option.map_some', hv]
  refine ⟨hb, hs, ?_⟩
  intro heq
  rw [heq] at hb
  rw [hb] at hs
  have : (7:ℚ) = 1 := Option.some_inj.mp hs
  norm_num at this

/-- Claim C7, witness: the amended theorem applied at concrete inputs — the
unknown mode "banana" passes every row of the example chain through and
still yields a snapshot, and single mode with an absent expiry yields a
snapshot with no strikes. -/
theorem claim7_mode_fallback_witness :
    filterByMode "banana" "2024-01-05" chainThreeExp = chainThreeExp ∧
    (selectMatrixData (stateWithChain chainThreeExp "banana" none) none).isSome = true ∧
    (selectMatrixData (stateWithChain chainThreeExp "single" (some "2030-01-01")) none).map
      (fun s => s.strikes) = some [] := by
  refine ⟨claim7_mode_fallback.1 "banana" "2024-01-05" (by decide) (by decide) chainThreeExp,
    ?_, ?_⟩
  · exact claim7_mode_fallback.2.1 (stateWithChain chainThreeExp "banana" none) none
      { underlying_price := 100, chain := chainThreeExp } rfl (by decide)
  · obtain ⟨snap, hsel, hstr, -, -⟩ := claim7_mode_fallback.2.2
      (stateWithChain chainThreeExp "single" (some "2030-01-01")) none
      { underlying_price := 100, chain := chainThreeExp } "2030-01-01"
      rfl (by decide) rfl rfl (by decide) (by decide)
    rw [hsel, Option.map_some', hstr]

/-- Claim C9, counterexample: `setState` does not produce the plain shallow
merge.  With an update that carries a `data` key holding a "BTC" entry, the
synchronization loop overwrites the bybit asset price inside
`exchangeData` — a top-level key not present in the update — so the result
differs from the shallow merge and `exchangeData` does not keep its previous
value. -/
theorem claim9_sync_counterexample :
    (setState ctxSyncEx updDataEx).1.st ≠ mergeState ctxSyncEx.st updDataEx ∧
    (setState ctxSyncEx updDataEx).1.st.exchangeData ≠ ctxSyncEx.st.exchangeData := by
  constructor <;> decide

/-- Claim C9 (amended): `setState` computes the shallow merge of the old
state with the partial update (each key present in the update takes its new
value, the rest keep theirs), then — when and only when the update carries a
`data` key — synchronizes `exchangeData.bybit.assets` from the merged data,
and then synchronously emits exactly one notification per registered
listener, each carrying the post-merge (and post-sync) state; listeners are
unchanged and, for a duplicate-free listener set, each listener is notified
exactly once per call. -/
theorem claim9_setState_contract (ctx : StoreCtx) (upd : PartialState) :
    ((setState ctx upd).1.st =
      if upd.data.isSome then
        { mergeState ctx.st upd with
            exchangeData := syncExchangeData (mergeState ctx.st upd).exchangeData
              (mergeState ctx.st upd).data }
      else mergeState ctx.st upd) ∧
    (upd.data = none → (setState ctx upd).1.st = mergeState ctx.st upd) ∧
    (setState ctx upd).1.listeners = ctx.listeners ∧
    (setState ctx upd).2 = ctx.listeners.map (fun l => (l, (setState ctx upd).1.st)) ∧
    (ctx.listeners.Nodup → ∀ l ∈ ctx.listeners,
      ((setState ctx upd).2.map Prod.fst).count l = 1) ∧
    (mergeState ctx.st upd).data = upd.data.getD ctx.st.data ∧
    (mergeState ctx.st upd).exchangeData = upd.exchangeData.getD ctx.st.exchangeData ∧
    (mergeState ctx.st upd).currentExchange = upd.currentExchange.getD ctx.st.currentExchange ∧
    (mergeState ctx.st upd).activeTicker = upd.activeTicker.getD ctx.st.activeTicker ∧
    (mergeState ctx.st upd).currentTab = upd.currentTab.getD ctx.st.currentTab ∧
    (mergeState ctx.st upd).gexMode = upd.gexMode.getD ctx.st.gexMode ∧
    (mergeState ctx.st upd).selectedExpiry = upd.selectedExpiry.getD ctx.st.selectedExpiry := by
  have hif : (setState ctx upd).1.st =
      if upd.data.isSome then
        { mergeState ctx.st upd with
            exchangeData := syncExchangeData (mergeState ctx.st upd).exchangeData
              (mergeState ctx.st upd).data }
      else mergeState ctx.st upd := rfl
  refine ⟨hif, ?_, rfl, rfl, ?_, rfl, rfl, rfl, rfl, rfl, rfl, rfl⟩
  · intro h
    rw [hif, h]
    rfl
  · intro hnd l hl
    have hmap : ((setState ctx upd).2.map Prod.fst) = ctx.listeners := by
      show ((ctx.listeners.map (fun l => (l, (setState ctx upd).1.st))).map Prod.fst) =
        ctx.listeners
      rw [List.map_map]
      have hco : (Prod.fst ∘ fun l : ℕ => (l, (setState ctx upd).1.st)) = id := rfl
      rw [hco, List.map_id]
    rw [hmap]
    exact List.count_eq_one_of_mem hnd hl

/-- Claim C9, witness: the contract applied to a concrete store — an update
with no `data` key is the pure shallow merge, and each of the two registered
listeners is notified exactly once. -/
theorem claim9_setState_contract_witness :
    (setState ctxListeners {}).1.st = mergeState ctxListeners.st {} ∧
    ((setState ctxListeners {}).2.map Prod.fst).count 3 = 1 := by
  have h := claim9_setState_contract ctxListeners {}
  exact ⟨h.2.1 rfl, h.2.2.2.2.1 (by decide) 3 (by decide)⟩

/-- Claim C10: `subscribe` registers the listener; invoking the returned
closure (`unsubscribe`) removes it from the listener set, after which no
`setState` notification reaches it, while every still-registered listener is
notified (with the new state) by every subsequent `setState` call. -/
theorem claim10_unsubscribe_contract (ctx : StoreCtx) (l : ℕ) (upd : PartialState)
    (hnd : ctx.listeners.Nodup) :
    l ∈ (subscribe ctx l).listeners ∧
    l ∉ (unsubscribe ctx l).listeners ∧
    (∀ p ∈ (setState (unsubscribe ctx l) upd).2, p.1 ≠ l) ∧
    (∀ x ∈ ctx.listeners, x ≠ l →
      (x, (setState (unsubscribe ctx l) upd).1.st) ∈ (setState (unsubscribe ctx l) upd).2) ∧
    (∀ x ∈ ctx.listeners, (x, (setState ctx upd).1.st) ∈ (setState ctx upd).2) := by
  refine ⟨?_, ?_, ?_, ?_, ?_⟩
  · unfold subscribe
    by_cases h : l ∈ ctx.listeners
    · rw [if_pos h]
      exact h
    · rw [if_neg h]
      exact List.mem_append_right _ (List.mem_singleton.mpr rfl)
  · show l ∉ ctx.listeners.erase l
    intro hmem
    exact absurd (hnd.mem_erase_iff.mp hmem).1 (by simp)
  · intro p hp
    obtain ⟨x, hx, hpe⟩ := List.mem_map.mp hp
    rw [← hpe]
    exact (hnd.mem_erase_iff.mp hx).1
  · intro x hx hne
    exact List.mem_map_of_mem _ (hnd.mem_erase_iff.mpr ⟨hne, hx⟩)
  · intro x hx
    exact List.mem_map_of_mem _ hx

/-- Claim C10, witness: the subscription contract applied to a concrete
store with listeners 3 and 7 — unsubscribing 7 removes it, and listener 3 is
still notified. -/
theorem claim10_unsubscribe_contract_witness :
    7 ∈ (subscribe ctxListeners 7).listeners ∧
    7 ∉ (unsubscribe ctxListeners 7).listeners ∧
    (3, (setState (unsubscribe ctxListeners 7) {}).1.st) ∈
      (setState (unsubscribe ctxListeners 7) {}).2 := by
  have h := claim10_unsubscribe_contract ctxListeners 7 {} (by decide)
  exact ⟨h.1, h.2.1, h.2.2.2.1 3 (by decide) (by decide)⟩
